import Mathlib

set_option maxRecDepth 10000

/-! Shallow embedding of the ss9k voice-to-input engine (Rust sources
`src/commands.rs`, `src/lookups.rs`, `src/vad.rs`, `src/main.rs`) and proofs
about its command interpreter, key/mode state, and VAD state machine.

Rust `String` / `&str` is modelled as Lean `String` (a sequence of Unicode
scalar values); byte-level indexing, which Rust exposes and which can panic,
is modelled explicitly through UTF-8 byte sizes, with `Option` capturing the
panic of an out-of-bounds or non-character-boundary slice. -/

namespace SS9K

/-- Unicode lowercase mapping as used by Rust `str::to_lowercase` /
`char::to_lowercase`, restricted to the code points exercised in this
development: ASCII letters, and U+0130 (LATIN CAPITAL LETTER I WITH DOT
ABOVE) which lowercases to the two-scalar sequence U+0069 U+0307.  All other
code points appearing in this file (ASCII digits, punctuation, emoji) have no
lowercase mapping, so leaving them unchanged is faithful. -/
def rustLowerChar (c : Char) : List Char :=
  if 'A' ≤ c ∧ c ≤ 'Z' then [Char.ofNat (c.toNat + 32)]
  else if c = Char.ofNat 0x130 then [Char.ofNat 0x69, Char.ofNat 0x307]
  else [c]

/-- Unicode uppercase mapping (`char::to_uppercase`), restricted likewise to
ASCII; other code points used here are unchanged under uppercasing. -/
def rustUpperChar (c : Char) : List Char :=
  if 'a' ≤ c ∧ c ≤ 'z' then [Char.ofNat (c.toNat - 32)]
  else [c]

/-- Lowercase a char list (`str::to_lowercase` over the scalar sequence). -/
def lowerChars (l : List Char) : List Char := l.flatMap rustLowerChar

/-- Rust `str::to_lowercase`. -/
def lowerStr (s : String) : String := String.mk (lowerChars s.data)

/-- Rust `str::to_uppercase`. -/
def upperStr (s : String) : String := String.mk (s.data.flatMap rustUpperChar)

/-- Rust `char::is_whitespace`, restricted to the whitespace code points
exercised here (ASCII whitespace). -/
def rustIsWs (c : Char) : Bool :=
  c = ' ' || c = '\t' || c = '\n' || c = '\x0d' || c = '\x0b' || c = '\x0c'

/-- Rust `char::is_alphanumeric` (Unicode Alphabetic or Nd), restricted to
ASCII alphanumerics plus U+0130, the only non-ASCII alphabetic code point
exercised in this development; the emoji and punctuation code points used
here are all non-alphanumeric, so returning `false` for them is faithful. -/
def rustIsAlnum (c : Char) : Bool :=
  c.isAlpha || c.isDigit || c = Char.ofNat 0x130

/-- UTF-8 byte length of a scalar sequence (Rust `str::len`). -/
def utf8Len (l : List Char) : Nat := (l.map Char.utf8Size).sum

/-- Drop the first `n` bytes of a string (`&s[n..]`): `none` models the Rust
panic when `n` is out of bounds or not on a character boundary. -/
def byteDrop (l : List Char) (n : Nat) : Option (List Char) :=
  match l, n with
  | l, 0 => some l
  | [], _ + 1 => none
  | c :: rest, n + 1 =>
    if n + 1 < c.utf8Size then none
    else byteDrop rest (n + 1 - c.utf8Size)

/-- Take the first `n` bytes of a string (`&s[..n]`): `none` models the Rust
panic when `n` is out of bounds or not on a character boundary. -/
def byteTake (l : List Char) (n : Nat) : Option (List Char) :=
  match l, n with
  | _, 0 => some []
  | [], _ + 1 => none
  | c :: rest, n + 1 =>
    if n + 1 < c.utf8Size then none
    else (byteTake rest (n + 1 - c.utf8Size)).map (c :: ·)

/-- Rust slice `&s[a..b]`; `none` models the panic. -/
def byteSlice (l : List Char) (a b : Nat) : Option (List Char) :=
  if a ≤ b then (byteDrop l a).bind (fun t => byteTake t (b - a)) else none

/-- Rust `str::find` for a substring needle: byte offset of the first match.
For valid UTF-8 a substring match always begins on a character boundary, so
searching scalar-by-scalar and summing byte sizes is faithful. -/
def rustFind (hay needle : List Char) : Option Nat :=
  if needle.isPrefixOf hay then some 0
  else
    match hay with
    | [] => none
    | c :: rest => (rustFind rest needle).map (· + c.utf8Size)

/-- Rust `str::rfind`: byte offset of the last match of the needle. -/
def rustRfind (hay needle : List Char) : Option Nat :=
  match hay with
  | [] => if needle.isPrefixOf ([] : List Char) then some 0 else none
  | c :: rest =>
    match rustRfind rest needle with
    | some n => some (n + c.utf8Size)
    | none => if needle.isPrefixOf (c :: rest) then some 0 else none

/-- Rust `str::strip_prefix`. -/
def chopPre (p s : String) : Option String :=
  if p.data.isPrefixOf s.data then some (String.mk (s.data.drop p.data.length))
  else none

/-- Rust `str::starts_with`. -/
def rustStartsWith (s p : String) : Bool := p.data.isPrefixOf s.data

/-- Rust `str::trim` (drops leading and trailing whitespace). -/
def rustTrim (s : String) : String :=
  String.mk (((s.data.dropWhile rustIsWs).reverse.dropWhile rustIsWs).reverse)

/-- Helper for `splitWs`: accumulates the current word (reversed). -/
def splitWsAux : List Char → List Char → List (List Char)
  | [], acc => if acc.isEmpty then [] else [acc.reverse]
  | c :: rest, acc =>
    if rustIsWs c then
      if acc.isEmpty then splitWsAux rest [] else acc.reverse :: splitWsAux rest []
    else splitWsAux rest (c :: acc)

/-- Rust `str::split_whitespace` collected to a vector. -/
def splitWs (s : String) : List String := (splitWsAux s.data []).map String.mk

/-! ### `normalize_aliases` (src/commands.rs lines 71-95)

The Rust function searches `result[search_start..].to_lowercase()` for the
lowercased alias key and then uses the returned byte offset to slice the
ORIGINAL string, resuming after `from.len()` bytes.  Both slices can panic
when lowercasing changes byte lengths; `none` models that panic.  An empty
alias key makes the Rust loop run forever (`find` of `""` is `Some(0)` and
`search_start` never advances); that divergence is likewise modelled as
`none`.  The fuel `utf8Len res + 1` is sufficient for every terminating run
because `search_start` advances by `from.len() ≥ 1` bytes per iteration. -/

/-- One iteration of the `while let Some(pos) = ...` loop of
`normalize_aliases`, with `acc` holding `new_result` built so far. -/
def aliasLoop (fromW toW : List Char) :
    Nat → List Char → Nat → List Char → Option (List Char)
  | 0, _, _, _ => none
  | fuel + 1, res, searchStart, acc =>
    match byteDrop res searchStart with
    | none => none
    | some suffix =>
      match rustFind (lowerChars suffix) (lowerChars fromW) with
      | none => some (acc ++ suffix)
      | some pos =>
        let absPos := searchStart + pos
        match byteSlice res searchStart absPos with
        | none => none
        | some pre =>
          aliasLoop fromW toW fuel res (absPos + utf8Len fromW) (acc ++ pre ++ toW)

/-- One `(from, to)` pass of `normalize_aliases` over `result`. -/
def applyAlias (res : List Char) (fromW toW : List Char) : Option (List Char) :=
  if fromW.isEmpty then none
  else aliasLoop fromW toW (utf8Len res + 1) res 0 []

/-- Model of `normalize_aliases` (src/commands.rs lines 71-95); the alias map
is a list in Rust `HashMap` iteration order.  `none` models a panic. -/
def normalizeAliases (text : String) (aliases : List (String × String)) :
    Option String :=
  (aliases.foldlM (fun res (p : String × String) =>
    applyAlias res p.1.data p.2.data) text.data).map String.mk

/-! ### Synthetic keys (enigo `Key`) and the lookup tables of src/lookups.rs -/

/-- Model of the `enigo::Key` constructors used by the sources. -/
inductive EKey where
  | Unicode (c : Char)
  | Shift | Control | Alt | Meta
  | UpArrow | DownArrow | LeftArrow | RightArrow
  | Space | Return | Tab | Escape | Backspace
  | Home | End | PageUp | PageDown
  | MediaPlayPause | MediaNextTrack | MediaPrevTrack
  | VolumeUp | VolumeDown | VolumeMute
  deriving DecidableEq, Repr

/-- Model of `std::mem::discriminant` on `enigo::Key`: the constructor tag,
ignoring the payload of `Unicode`. -/
def keyDiscr : EKey → Nat
  | .Unicode _ => 0
  | .Shift => 1 | .Control => 2 | .Alt => 3 | .Meta => 4
  | .UpArrow => 5 | .DownArrow => 6 | .LeftArrow => 7 | .RightArrow => 8
  | .Space => 9 | .Return => 10 | .Tab => 11 | .Escape => 12 | .Backspace => 13
  | .Home => 14 | .End => 15 | .PageUp => 16 | .PageDown => 17
  | .MediaPlayPause => 18 | .MediaNextTrack => 19 | .MediaPrevTrack => 20
  | .VolumeUp => 21 | .VolumeDown => 22 | .VolumeMute => 23

/-- Emoji table of `execute_emoji` (src/lookups.rs lines 82-185): name to
typed glyph; `none` is the unknown-emoji arm. -/
def emojiLookup (name : String) : Option String :=
  match name with
  | "smile" | "happy" => some "😊"
  | "laugh" | "lol" | "laughing" => some "😂"
  | "joy" => some "🤣"
  | "wink" => some "😉"
  | "love" | "heart eyes" => some "😍"
  | "cool" | "sunglasses" => some "😎"
  | "think" | "thinking" | "hmm" => some "🤔"
  | "cry" | "sad" | "crying" => some "😭"
  | "angry" | "mad" => some "😠"
  | "skull" | "dead" => some "💀"
  | "eye roll" | "roll eyes" => some "🙄"
  | "shush" | "quiet" => some "🤫"
  | "mind blown" | "exploding head" => some "🤯"
  | "clown" => some "🤡"
  | "nerd" => some "🤓"
  | "sick" | "ill" => some "🤢"
  | "scream" => some "😱"
  | "thumbs up" | "thumb up" | "yes" => some "👍"
  | "thumbs down" | "thumb down" | "no" => some "👎"
  | "clap" | "clapping" => some "👏"
  | "wave" | "hi" | "bye" => some "👋"
  | "shrug" => some "🤷"
  | "facepalm" | "face palm" => some "🤦"
  | "pray" | "please" | "thanks" => some "🙏"
  | "muscle" | "strong" | "flex" => some "💪"
  | "point up" => some "☝️"
  | "point right" => some "👉"
  | "point left" => some "👈"
  | "point down" => some "👇"
  | "ok" | "okay" => some "👌"
  | "peace" | "victory" => some "✌️"
  | "rock" | "metal" => some "🤘"
  | "middle finger" | "fuck you" => some "🖕"
  | "heart" | "red heart" => some "❤️"
  | "blue heart" => some "💙"
  | "green heart" => some "💚"
  | "yellow heart" => some "💛"
  | "purple heart" => some "💜"
  | "black heart" => some "🖤"
  | "white heart" => some "🤍"
  | "orange heart" => some "🧡"
  | "broken heart" => some "💔"
  | "sparkling heart" => some "💖"
  | "kiss" => some "😘"
  | "dog" | "wag" => some "🐕"
  | "cat" => some "🐈"
  | "crab" | "rust" => some "🦀"
  | "snake" => some "🐍"
  | "bug" | "beetle" => some "🐛"
  | "butterfly" => some "🦋"
  | "unicorn" => some "🦄"
  | "dragon" => some "🐉"
  | "shark" => some "🦈"
  | "whale" => some "🐋"
  | "octopus" => some "🐙"
  | "fire" | "lit" => some "🔥"
  | "star" | "gold star" => some "⭐"
  | "sparkles" | "sparkle" => some "✨"
  | "lightning" | "zap" => some "⚡"
  | "poop" | "shit" => some "💩"
  | "100" | "hundred" => some "💯"
  | "check" | "checkmark" => some "✅"
  | "x" | "cross" => some "❌"
  | "warning" => some "⚠️"
  | "question" => some "❓"
  | "exclamation" => some "❗"
  | "pin" | "pushpin" => some "📌"
  | "bulb" | "idea" | "lightbulb" => some "💡"
  | "gear" | "settings" => some "⚙️"
  | "rocket" => some "🚀"
  | "trophy" => some "🏆"
  | "medal" => some "🏅"
  | "crown" => some "👑"
  | "money" | "cash" => some "💰"
  | "gem" | "diamond" => some "💎"
  | "gift" | "present" => some "🎁"
  | "party" | "celebrate" => some "🎉"
  | "balloon" => some "🎈"
  | "beer" | "cheers" => some "🍺"
  | "coffee" => some "☕"
  | "pizza" => some "🍕"
  | "taco" => some "🌮"
  | _ => none

/-- Punctuation table of `execute_punctuation` (src/lookups.rs lines 14-79). -/
def punctLookup (punct : String) : Option String :=
  match punct with
  | "period" | "dot" | "full stop" | "point" => some "."
  | "comma" | "coma" => some ","
  | "question" | "question mark" => some "?"
  | "exclamation" | "exclamation mark" | "bang" | "exclamation point" => some "!"
  | "colon" | "colin" | "cologne" => some ":"
  | "semicolon" | "semi colon" | "semi colin" | "semicolin" => some ";"
  | "ellipsis" | "ellipses" | "dot dot dot" => some "..."
  | "quote" | "double quote" | "quotes" | "quotation" => some "\""
  | "single quote" | "apostrophe" | "apostrophy" => some "\x27"
  | "backtick" | "grave" | "back tick" | "back tic" | "backtic" => some "\x60"
  | "open paren" | "left paren" | "open parenthesis" | "open parentheses" => some "("
  | "close paren" | "right paren" | "close parenthesis" | "close parentheses" => some ")"
  | "open bracket" | "left bracket" | "open square" => some "["
  | "close bracket" | "right bracket" | "close square" => some "]"
  | "open brace" | "left brace" | "open curly" | "open curley" => some "\x7b"
  | "close brace" | "right brace" | "close curly" | "close curley" => some "\x7d"
  | "less than" | "open angle" | "left angle" | "left chevron" => some "<"
  | "greater than" | "close angle" | "right angle" | "right chevron" => some ">"
  | "plus" | "positive" => some "+"
  | "minus" | "dash" | "hyphen" | "negative" => some "-"
  | "equals" | "equal" | "equal sign" | "equals sign" => some "="
  | "underscore" | "under score" | "underline" => some "_"
  | "asterisk" | "star" | "asterix" | "astrix" | "asterisks" => some "*"
  | "slash" | "forward slash" | "forwardslash" => some "/"
  | "backslash" | "back slash" | "backward slash" => some "\\"
  | "pipe" | "bar" | "vertical bar" | "vertical line" => some "|"
  | "caret" | "carrot" | "karet" | "carret" | "hat" => some "^"
  | "tilde" | "tilda" | "tildy" | "squiggle" => some "~"
  | "percent" | "percentage" | "per cent" => some "%"
  | "ampersand" | "and sign" | "and symbol" => some "&"
  | "at" | "at sign" | "at symbol" => some "@"
  | "hash" | "hashtag" | "pound" | "number sign" | "hash tag" | "octothorpe" => some "#"
  | "dollar" | "dollar sign" | "dollars" => some "$"
  | "arrow" | "fat arrow" | "thick arrow" | "rocket" => some "=>"
  | "thin arrow" | "skinny arrow" | "dash arrow" | "hyphen arrow" => some "->"
  | "double colon" | "scope" | "colon colon" | "colin colin" => some "::"
  | "double equals" | "equals equals" | "equal equal" => some "=="
  | "not equals" | "not equal" | "bang equals" | "exclamation equals" => some "!="
  | "less than or equal" | "less equal" | "less or equal" => some "<="
  | "greater than or equal" | "greater equal" | "greater or equal" => some ">="
  | "plus equals" | "plus equal" => some "+="
  | "minus equals" | "minus equal" | "dash equals" => some "-="
  | "and and" | "double and" | "ampersand ampersand" => some "&&"
  | "or or" | "double or" | "pipe pipe" | "double pipe" => some "||"
  | _ => none

/-- Model of `parse_key_name` (src/lookups.rs lines 188-239): key name (after
lowercasing) to `enigo::Key` for hold/release. -/
def parseKeyName (name : String) : Option EKey :=
  match lowerStr name with
  | "a" => some (.Unicode 'a') | "b" => some (.Unicode 'b')
  | "c" => some (.Unicode 'c') | "d" => some (.Unicode 'd')
  | "e" => some (.Unicode 'e') | "f" => some (.Unicode 'f')
  | "g" => some (.Unicode 'g') | "h" => some (.Unicode 'h')
  | "i" => some (.Unicode 'i') | "j" => some (.Unicode 'j')
  | "k" => some (.Unicode 'k') | "l" => some (.Unicode 'l')
  | "m" => some (.Unicode 'm') | "n" => some (.Unicode 'n')
  | "o" => some (.Unicode 'o') | "p" => some (.Unicode 'p')
  | "q" => some (.Unicode 'q') | "r" => some (.Unicode 'r')
  | "s" => some (.Unicode 's') | "t" => some (.Unicode 't')
  | "u" => some (.Unicode 'u') | "v" => some (.Unicode 'v')
  | "w" => some (.Unicode 'w') | "x" => some (.Unicode 'x')
  | "y" => some (.Unicode 'y') | "z" => some (.Unicode 'z')
  | "shift" => some .Shift
  | "control" | "ctrl" => some .Control
  | "alt" => some .Alt
  | "meta" | "super" | "windows" | "win" => some .Meta
  | "up" | "arrow up" => some .UpArrow
  | "down" | "arrow down" => some .DownArrow
  | "left" | "arrow left" => some .LeftArrow
  | "right" | "arrow right" => some .RightArrow
  | "space" => some .Space
  | "enter" | "return" => some .Return
  | "tab" => some .Tab
  | "escape" | "esc" => some .Escape
  | "backspace" => some .Backspace
  | _ => none

/-- Model of `word_to_char` (src/lookups.rs lines 242-338): NATO word, number
word, punctuation word, or raw single character, to a typed character. -/
def wordToChar (word : String) : Option Char :=
  let nato : Option Char :=
    match word with
    | "alpha" | "alfa" => some 'a'
    | "bravo" => some 'b'
    | "charlie" => some 'c'
    | "delta" => some 'd'
    | "echo" => some 'e'
    | "foxtrot" => some 'f'
    | "golf" => some 'g'
    | "hotel" => some 'h'
    | "india" => some 'i'
    | "juliet" | "juliett" => some 'j'
    | "kilo" => some 'k'
    | "lima" => some 'l'
    | "mike" => some 'm'
    | "november" => some 'n'
    | "oscar" => some 'o'
    | "papa" => some 'p'
    | "quebec" => some 'q'
    | "romeo" => some 'r'
    | "sierra" => some 's'
    | "tango" => some 't'
    | "uniform" => some 'u'
    | "victor" => some 'v'
    | "whiskey" => some 'w'
    | "xray" | "x-ray" => some 'x'
    | "yankee" => some 'y'
    | "zulu" => some 'z'
    | _ => none
  if nato.isSome then nato else
  let number : Option Char :=
    match word with
    | "zero" => some '0' | "one" => some '1' | "two" => some '2'
    | "three" => some '3' | "four" => some '4' | "five" => some '5'
    | "six" => some '6' | "seven" => some '7' | "eight" => some '8'
    | "nine" => some '9'
    | _ => none
  if number.isSome then number else
  let punct : Option Char :=
    match word with
    | "space" => some ' '
    | "period" | "dot" | "point" => some '.'
    | "comma" | "coma" => some ','
    | "at" | "at sign" => some '@'
    | "dash" | "hyphen" | "minus" => some '-'
    | "underscore" | "under score" | "underline" => some '_'
    | "slash" | "forward slash" => some '/'
    | "colon" | "colin" | "cologne" => some ':'
    | "semicolon" | "semi colon" | "semi colin" => some ';'
    | "hash" | "pound" | "hashtag" | "hash tag" | "octothorpe" => some '#'
    | "dollar" | "dollars" => some '$'
    | "percent" | "percentage" => some '%'
    | "ampersand" | "and" => some '&'
    | "asterisk" | "star" | "asterix" | "astrix" => some '*'
    | "plus" | "positive" => some '+'
    | "equals" | "equal" => some '='
    | "question" => some '?'
    | "exclamation" | "bang" => some '!'
    | "tilde" | "tilda" | "tildy" | "squiggle" => some '~'
    | "caret" | "carrot" | "karet" | "carret" | "hat" => some '^'
    | "pipe" | "bar" | "vertical" => some '|'
    | "backslash" | "back slash" => some '\\'
    | _ => none
  if punct.isSome then punct else
  if utf8Len word.data = 1 then
    match word.data.head? with
    | none => none
    | some ch =>
      if ch.isAlpha then some ch.toLower
      else if ch.isDigit then some ch
      else none
  else none

/-! ### Number and repetition parsing (src/commands.rs lines 870-917) -/

/-- Rust `str::parse::<usize>()`: optional leading plus sign, then one or
more ASCII digits (overflow is not modelled; the counts in scope are
small). -/
def rustParseUsize (s : String) : Option Nat :=
  let l := match s.data with | '+' :: rest => rest | l => l
  if l.isEmpty || !(l.all Char.isDigit) then none
  else some (l.foldl (fun n c => n * 10 + (c.toNat - 48)) 0)

/-- Model of `parse_number_word` (src/commands.rs lines 870-898). -/
def parseNumberWord (s : String) : Option Nat :=
  match rustParseUsize s with
  | some n => some n
  | none =>
    match s with
    | "zero" => some 0 | "one" => some 1
    | "two" | "to" | "too" => some 2
    | "three" => some 3
    | "four" | "for" => some 4
    | "five" => some 5 | "six" => some 6 | "seven" => some 7
    | "eight" => some 8 | "nine" => some 9 | "ten" => some 10
    | "eleven" => some 11 | "twelve" => some 12 | "thirteen" => some 13
    | "fourteen" => some 14 | "fifteen" => some 15 | "sixteen" => some 16
    | "seventeen" => some 17 | "eighteen" => some 18 | "nineteen" => some 19
    | "twenty" => some 20
    | _ => none

/-- Fallback branch of `parse_times_suffix`: a trailing `N times`. -/
def parseTimesFallback (cmd : String) : Option (String × Nat) :=
  let words := splitWs cmd
  if 2 ≤ words.length ∧ words.getLastD "" = "times" then
    let prev := words.getD (words.length - 2) ""
    match parseNumberWord prev with
    | some n =>
      let endIdx := (rustRfind cmd.data prev.data).getD (utf8Len cmd.data)
      match byteTake cmd.data endIdx with
      | none => none
      | some pre => some (rustTrim (String.mk pre), n)
    | none => some (cmd, 0)
  else some (cmd, 0)

/-- Model of `parse_times_suffix` (src/commands.rs lines 902-917): strips a
trailing repetition suffix, count `0` when absent; `none` models a slicing
panic (none occurs on the inputs exercised here, but the byte arithmetic is
kept faithful). -/
def parseTimes (cmd : String) : Option (String × Nat) :=
  match rustRfind cmd.data " times ".data with
  | some idx =>
    match byteDrop cmd.data (idx + 7) with
    | none => none
    | some afterB =>
      let after := rustTrim (String.mk afterB)
      match parseNumberWord after with
      | some n =>
        match byteTake cmd.data idx with
        | none => none
        | some pre => some (String.mk pre, n)
      | none => parseTimesFallback cmd
  | none => parseTimesFallback cmd

/-- Model of `normalize_for_matching` (src/commands.rs lines 99-120):
lowercase, split on whitespace, digit-normalize number words, join with no
separator. -/
def normalizeForMatching (s : String) : String :=
  String.join ((splitWs (lowerStr s)).map (fun word =>
    match word with
    | "zero" => "0" | "one" => "1"
    | "two" | "to" | "too" => "2"
    | "three" => "3"
    | "four" | "for" => "4"
    | "five" => "5" | "six" => "6" | "seven" => "7"
    | "eight" => "8" | "nine" => "9" | "ten" => "10"
    | _ => word))

/-! ### Case/transformation modes (src/commands.rs lines 40-56, 142-534) -/

/-- Model of the `CaseMode` enum. -/
inductive CaseMode where
  | Off | Snake | Camel | Pascal | Kebab | Screaming | Caps | Lower
  | Math | Code | Alternating | Swearing
  deriving DecidableEq, Repr

/-- Model of `capitalize_word` (src/commands.rs lines 143-149). -/
def capitalizeWord (s : String) : String :=
  match s.data with
  | [] => ""
  | c :: rest => String.mk (rustUpperChar c ++ rest)

/-- Model of `strip_punct` (src/commands.rs lines 187-192): keep
alphanumerics, then lowercase. -/
def stripPunct (word : String) : String :=
  lowerStr (String.mk (word.data.filter rustIsAlnum))

/-- Five-word phrase table of math mode. -/
def mathFive (s : String) : Option String :=
  match s with
  | "greater than or equal to" => some ">="
  | "less than or equal to" => some "<="
  | _ => none

/-- Three-word phrase table of math mode; the `"divided by" | "over"` arm of
the source returns `None` (deferred to the two-word table) and so is absent
here. -/
def mathThree (s : String) : Option String :=
  match s with
  | "is equal to" => some "="
  | "not equal to" | "not equals to" => some "!="
  | "to the power" => some "^"
  | _ => none

/-- Two-word phrase table of math mode. -/
def mathTwo (s : String) : Option String :=
  match s with
  | "divided by" | "divided over" => some "/"
  | "multiplied by" => some "*"
  | "greater than" => some ">"
  | "less than" => some "<"
  | "equal to" | "equals to" => some "="
  | "not equal" | "not equals" => some "!="
  | "double equals" | "double equal" | "triple equals" | "strict equals" => some "=="
  | "open paren" | "open parenthesis" | "left paren" | "left parenthesis" => some "("
  | "close paren" | "close parenthesis" | "right paren" | "right parenthesis" => some ")"
  | "open bracket" | "left bracket" => some "["
  | "close bracket" | "right bracket" => some "]"
  | "open brace" | "left brace" => some "\x7b"
  | "close brace" | "right brace" => some "\x7d"
  | "at least" => some ">="
  | "at most" => some "<="
  | _ => none

/-- Single-word conversion of math mode (applied to the cleaned word; words
outside the table pass through in cleaned form, exactly as the source pushes
`&word` from `clean`). -/
def mathOne (word : String) : String :=
  match word with
  | "zero" => "0" | "one" => "1"
  | "two" | "to" | "too" => "2"
  | "three" => "3"
  | "four" | "for" => "4"
  | "five" => "5" | "six" => "6" | "seven" => "7" | "eight" => "8"
  | "nine" => "9" | "ten" => "10" | "eleven" => "11" | "twelve" => "12"
  | "thirteen" => "13" | "fourteen" => "14" | "fifteen" => "15"
  | "sixteen" => "16" | "seventeen" => "17" | "eighteen" => "18"
  | "nineteen" => "19" | "twenty" => "20"
  | "plus" | "add" => "+"
  | "minus" | "subtract" => "-"
  | "times" | "multiplied" | "multiply" => "*"
  | "divided" | "divide" | "over" => "/"
  | "equals" | "equal" => "="
  | "modulo" | "mod" => "%"
  | "caret" | "power" | "exponent" => "^"
  | "greater" => ">"
  | "less" => "<"
  | "point" | "dot" | "decimal" => "."
  | "comma" => ","
  | "percent" => "%"
  | "paren" | "parenthesis" => "("
  | "bracket" => "["
  | "brace" => "\x7b"
  | "pi" => "π"
  | "infinity" => "∞"
  | _ => word

/-- Loop of `apply_math_mode` over the cleaned word list (the source indexes
`clean` with longest-phrase lookahead; the original `words` are only read
through `clean`). -/
def mathGo : List String → List String
  | [] => []
  | w1 :: w2 :: w3 :: w4 :: w5 :: rest5 =>
    match mathFive (w1 ++ " " ++ w2 ++ " " ++ w3 ++ " " ++ w4 ++ " " ++ w5) with
    | some sym => sym :: mathGo rest5
    | none =>
      match mathThree (w1 ++ " " ++ w2 ++ " " ++ w3) with
      | some sym => sym :: mathGo (w4 :: w5 :: rest5)
      | none =>
        match mathTwo (w1 ++ " " ++ w2) with
        | some sym => sym :: mathGo (w3 :: w4 :: w5 :: rest5)
        | none => mathOne w1 :: mathGo (w2 :: w3 :: w4 :: w5 :: rest5)
  | [w1, w2, w3, w4] =>
    match mathThree (w1 ++ " " ++ w2 ++ " " ++ w3) with
    | some sym => sym :: mathGo [w4]
    | none =>
      match mathTwo (w1 ++ " " ++ w2) with
      | some sym => sym :: mathGo [w3, w4]
      | none => mathOne w1 :: mathGo [w2, w3, w4]
  | [w1, w2, w3] =>
    match mathThree (w1 ++ " " ++ w2 ++ " " ++ w3) with
    | some sym => sym :: mathGo []
    | none =>
      match mathTwo (w1 ++ " " ++ w2) with
      | some sym => sym :: mathGo [w3]
      | none => mathOne w1 :: mathGo [w2, w3]
  | [w1, w2] =>
    match mathTwo (w1 ++ " " ++ w2) with
    | some sym => sym :: mathGo []
    | none => mathOne w1 :: mathGo [w2]
  | [w1] => [mathOne w1]

/-- Model of `apply_math_mode` (src/commands.rs lines 198-332). -/
def applyMathMode (text : String) : String :=
  let words := splitWs text
  if words.isEmpty then text
  else String.intercalate " " (mathGo (words.map stripPunct))

/-- Two-word phrase table of code mode. -/
def codeTwo (s : String) : Option String :=
  match s with
  | "open paren" | "open parenthesis" | "left paren" | "left parenthesis" => some "("
  | "close paren" | "close parenthesis" | "right paren" | "right parenthesis" => some ")"
  | "open bracket" | "left bracket" => some "["
  | "close bracket" | "right bracket" => some "]"
  | "open brace" | "left brace" => some "\x7b"
  | "close brace" | "right brace" => some "\x7d"
  | "open angle" | "left angle" | "less than" => some "<"
  | "close angle" | "right angle" | "greater than" => some ">"
  | "double equals" | "equals equals" | "double equal" => some "=="
  | "not equals" | "not equal" | "bang equals" => some "!="
  | "double ampersand" | "and and" | "ampersand ampersand" => some "&&"
  | "double pipe" | "or or" | "pipe pipe" => some "||"
  | "double colon" | "colon colon" => some "::"
  | "double slash" | "slash slash" => some "//"
  | "fat arrow" | "arrow fat" | "equals arrow" => some "=>"
  | "thin arrow" | "arrow thin" | "dash arrow" | "minus arrow" => some "->"
  | "plus equals" | "plus equal" => some "+="
  | "minus equals" | "minus equal" => some "-="
  | "times equals" | "star equals" => some "*="
  | "divide equals" | "slash equals" => some "/="
  | "less equal" | "less equals" => some "<="
  | "greater equal" | "greater equals" => some ">="
  | "left shift" | "shift left" => some "<<"
  | "right shift" | "shift right" => some ">>"
  | "and sign" => some "&"
  | "or sign" => some "|"
  | _ => none

/-- Single-word symbol conversion of code mode; the empty string is the
source's marker for a non-symbol word. -/
def codeOne (word : String) : String :=
  match word with
  | "dot" | "period" => "."
  | "comma" => ","
  | "colon" => ":"
  | "semicolon" | "semi" => ";"
  | "equals" | "equal" => "="
  | "plus" => "+"
  | "minus" | "dash" | "hyphen" => "-"
  | "asterisk" | "star" | "times" => "*"
  | "slash" | "divide" => "/"
  | "backslash" => "\\"
  | "pipe" => "|"
  | "ampersand" | "amp" => "&"
  | "caret" | "hat" => "^"
  | "tilde" | "squiggle" => "~"
  | "at" => "@"
  | "hash" | "pound" | "hashtag" => "#"
  | "dollar" | "dollars" => "$"
  | "percent" => "%"
  | "bang" | "exclamation" => "!"
  | "question" => "?"
  | "underscore" => "_"
  | "backtick" | "grave" => "\x60"
  | "quote" | "double quote" => "\""
  | "single quote" | "apostrophe" => "\x27"
  | "paren" | "parenthesis" => "("
  | "bracket" => "["
  | "brace" => "\x7b"
  | "angle" => "<"
  | _ => ""

/-- Loop of `apply_code_mode` over the zipped original/cleaned word lists
(two-word lookahead on the cleaned words; pass-through pushes the ORIGINAL
word). -/
def codeGo : List (String × String) → List String
  | [] => []
  | (w1, c1) :: rest1 =>
    let single :=
      let conv := codeOne c1
      (if conv.isEmpty then w1 else conv) :: codeGo rest1
    match rest1 with
    | (_, c2) :: rest2 =>
      match codeTwo (c1 ++ " " ++ c2) with
      | some sym => sym :: codeGo rest2
      | none => single
    | [] => single

/-- Token is a word (all alphanumeric or underscore), deciding whether code
mode keeps a space between it and its neighbour. -/
def codeIsWord (t : String) : Bool :=
  t.data.all (fun c => rustIsAlnum c || c = '_')

/-- Join step of code mode: space only between two word tokens. -/
def codeJoin : List String → String
  | [] => ""
  | t :: rest =>
    t ++ String.join (List.zipWith
      (fun prev curr => (if codeIsWord prev ∧ codeIsWord curr then " " else "") ++ curr)
      (t :: rest) rest)

/-- Model of `apply_code_mode` (src/commands.rs lines 337-454). -/
def applyCodeMode (text : String) : String :=
  let words := splitWs text
  if words.isEmpty then text
  else codeJoin (codeGo (words.zip (words.map stripPunct)))

/-- Index-alternating recasing of `apply_alternating_mode`
(src/commands.rs lines 457-468). -/
def altGo (i : Nat) : List Char → List Char
  | [] => []
  | c :: rest =>
    (if i % 2 = 0 then rustLowerChar c else rustUpperChar c) ++ altGo (i + 1) rest

/-- Model of `apply_alternating_mode`. -/
def applyAlternatingMode (text : String) : String := String.mk (altGo 0 text.data)

/-- Profanity list of `apply_swearing_mode`. -/
def swearsList : List String :=
  ["fuck", "fucking", "fucked", "fucker", "fucks",
   "shit", "shitting", "shitty", "shits",
   "damn", "damned", "dammit",
   "ass", "asses", "asshole", "assholes",
   "bitch", "bitches", "bitchy",
   "crap", "crappy",
   "hell", "heck",
   "bastard", "bastards",
   "dick", "dicks",
   "piss", "pissed", "pissing",
   "cock", "cocks",
   "cunt", "cunts"]

/-- Grawlix alphabet. -/
def grawlixList : List String := ["@", "#", "$", "%", "!", "&", "*"]

/-- Rust `str::trim_matches(|c| !c.is_alphanumeric())`. -/
def trimNonAlnum (s : String) : String :=
  String.mk (((s.data.dropWhile (fun c => !rustIsAlnum c)).reverse.dropWhile
    (fun c => !rustIsAlnum c)).reverse)

/-- Model of `apply_swearing_mode` (src/commands.rs lines 471-503); note the
grawlix length uses the BYTE length of the original word, clamped to
`[3, 7]`. -/
def applySwearingMode (text : String) : String :=
  String.intercalate " " ((splitWs text).map (fun word =>
    let clean := trimNonAlnum (lowerStr word)
    if clean ∈ swearsList then
      String.join ((List.range (min (max (utf8Len word.data) 3) 7)).map
        (fun i => grawlixList.getD (i % grawlixList.length) ""))
    else word))

/-- Model of `apply_case_mode` (src/commands.rs lines 152-184), with the
process-wide `CURRENT_MODE` passed explicitly. -/
def applyCaseMode (mode : CaseMode) (text : String) : String :=
  if mode = .Off then text
  else
    let words := splitWs text
    if words.isEmpty then text
    else
      match mode with
      | .Off => text
      | .Snake => String.intercalate "_" (words.map lowerStr)
      | .Camel =>
        match words with
        | [] => ""
        | w :: rest =>
          lowerStr w ++ String.join (rest.map (fun word => capitalizeWord (lowerStr word)))
      | .Pascal => String.join (words.map (fun w => capitalizeWord (lowerStr w)))
      | .Kebab => String.intercalate "-" (words.map lowerStr)
      | .Screaming => String.intercalate "_" (words.map upperStr)
      | .Caps => String.intercalate " " (words.map upperStr)
      | .Lower => String.intercalate " " (words.map lowerStr)
      | .Math => applyMathMode text
      | .Code => applyCodeMode text
      | .Alternating => applyAlternatingMode text
      | .Swearing => applySwearingMode text

/-- Model of `parse_mode_name` (src/commands.rs lines 518-534). -/
def parseModeName (name : String) : Option CaseMode :=
  match lowerStr name with
  | "off" | "normal" | "default" => some .Off
  | "snake" | "snek" => some .Snake
  | "camel" => some .Camel
  | "pascal" => some .Pascal
  | "kebab" | "kebob" => some .Kebab
  | "screaming" | "scream" | "yelling" | "yell" => some .Screaming
  | "caps" | "upper" | "uppercase" | "capital" | "capitals" => some .Caps
  | "lower" | "lowercase" => some .Lower
  | "math" | "maths" | "numeral" | "numerals" | "numbers" => some .Math
  | "code" | "coding" | "programming" | "symbols" => some .Code
  | "alternating" | "alternate" | "spongebob" | "mocking" => some .Alternating
  | "swearing" | "swear" | "grawlix" | "censored" | "censor" => some .Swearing
  | _ => none

/-! ### Interpreter state, injection trace, and the executor functions of
src/commands.rs.  Synthetic-keystroke calls (`enigo.text`, `enigo.key`) are
recorded as a trace of actions; this trace semantics models the runs in which
every injection call succeeds (the error paths of `execute_shift` are studied
separately with an explicit failure oracle below). -/

/-- Observable boundary actions of the action executor. -/
inductive Action where
  | typeText (s : String)
  | keyClick (k : EKey)
  | keyPress (k : EKey)
  | keyRelease (k : EKey)
  | customShell (cmd : String)
  | openConfig
  deriving DecidableEq, Repr

/-- Process-wide mutable state of src/commands.rs: `LAST_TYPED_LEN`,
`LAST_COMMAND`, `CURRENT_MODE`, `HELD_KEYS`. -/
structure CState where
  lastTypedLen : Nat
  lastCommand : Option String
  mode : CaseMode
  heldKeys : List EKey
  deriving DecidableEq, Repr

/-- Membership test of the `HashSet<HeldKey>`: `HeldKey` equality and hashing
are by `std::mem::discriminant` (src/commands.rs lines 22-38). -/
def heldContains (held : List EKey) (k : EKey) : Bool :=
  held.any (fun x => keyDiscr x == keyDiscr k)

/-- `HashSet::insert` with discriminant equality: a no-op when an element of
the same key kind is already present (the stored element is NOT replaced). -/
def heldInsert (held : List EKey) (k : EKey) : List EKey :=
  if heldContains held k then held else held ++ [k]

/-- `HashSet::remove` with discriminant equality. -/
def heldRemove (held : List EKey) (k : EKey) : List EKey :=
  held.filter (fun x => !(keyDiscr x == keyDiscr k))

/-- One cycle of the hold/repeat thread (src/commands.rs lines 1216-1237):
snapshot the held set and click every member. -/
def holdCycleClicks (held : List EKey) : List Action := held.map Action.keyClick

/-- Model of `execute_emoji` (src/lookups.rs lines 82-185): types the glyph
and returns `Ok(true)`; `LAST_TYPED_LEN` is NOT updated. -/
def executeEmoji (st : CState) (name : String) : Bool × CState × List Action :=
  match emojiLookup name with
  | some e => (true, st, [.typeText e])
  | none => (false, st, [])

/-- Model of `execute_punctuation` (src/lookups.rs lines 14-79): types the
symbol and returns `Ok(true)`; `LAST_TYPED_LEN` is NOT updated. -/
def executePunctuation (st : CState) (punct : String) : Bool × CState × List Action :=
  match punctLookup punct with
  | some s => (true, st, [.typeText s])
  | none => (false, st, [])

/-- Word loop of `execute_spell_mode`: modifier words capitalize the next
mapped character; unknown words are skipped (leaving the capital flag as
it is). -/
def spellChars : List String → Bool → List Char
  | [], _ => []
  | w :: rest, cap =>
    if w = "capital" ∨ w = "cap" ∨ w = "uppercase" ∨ w = "upper" then
      spellChars rest true
    else
      match wordToChar w with
      | some ch => (if cap then ch.toUpper else ch) :: spellChars rest false
      | none => spellChars rest cap

/-- Model of `execute_spell_mode` (src/commands.rs lines 1162-1193): types
the spelled string; `LAST_TYPED_LEN` is NOT updated. -/
def executeSpellMode (st : CState) (input : String) : Bool × CState × List Action :=
  let result := String.mk (spellChars (splitWs input) false)
  if result.data.isEmpty then (false, st, [])
  else (true, st, [.typeText result])

/-- Model of `execute_mode` (src/commands.rs lines 537-564). -/
def executeMode (st : CState) (modeName : String) : Bool × CState × List Action :=
  match parseModeName modeName with
  | some m => (true, { st with mode := m }, [])
  | none => (false, st, [])

/-- Model of `execute_hold` (src/commands.rs lines 1246-1265): parse the key
and insert it into the held set (the repeat thread clicks the set members
asynchronously; its cycle is `holdCycleClicks`). -/
def executeHold (st : CState) (keyName : String) : Bool × CState × List Action :=
  match parseKeyName keyName with
  | none => (false, st, [])
  | some k => (true, { st with heldKeys := heldInsert st.heldKeys k }, [])

/-- Model of `execute_release` (src/commands.rs lines 1268-1283). -/
def executeRelease (st : CState) (keyName : String) : Bool × CState × List Action :=
  match parseKeyName keyName with
  | none => (false, st, [])
  | some k => (true, { st with heldKeys := heldRemove st.heldKeys k }, [])

/-- Model of `execute_release_all` (src/commands.rs lines 1286-1302). -/
def executeReleaseAll (st : CState) : Bool × CState × List Action :=
  (true, { st with heldKeys := [] }, [])

/-- Per-iteration key actions of `execute_shift` (src/commands.rs lines
1107-1138); `none` is the unknown-subcommand arm. -/
def shiftIter (base : String) : Option (List Action) :=
  match base with
  | "left" => some [.keyClick .LeftArrow]
  | "right" => some [.keyClick .RightArrow]
  | "up" => some [.keyClick .UpArrow]
  | "down" => some [.keyClick .DownArrow]
  | "word left" => some [.keyPress .Control, .keyClick .LeftArrow, .keyRelease .Control]
  | "word right" => some [.keyPress .Control, .keyClick .RightArrow, .keyRelease .Control]
  | "home" => some [.keyClick .Home]
  | "end" => some [.keyClick .End]
  | "page up" => some [.keyClick .PageUp]
  | "page down" => some [.keyClick .PageDown]
  | "tab" => some [.keyClick .Tab]
  | "enter" | "return" => some [.keyClick .Return]
  | _ => none

/-- Model of `execute_shift` (src/commands.rs lines 1100-1159) in the
success trace semantics: Shift is pressed, the per-iteration actions run
`count.max(1)` times, and Shift is released; on an unknown subcommand Shift
is pressed and immediately released.  The outer `Option` models a slicing
panic inside `parse_times_suffix`. -/
def executeShift (st : CState) (cmd : String) : Option (Bool × CState × List Action) :=
  match parseTimes cmd with
  | none => none
  | some (baseCmd, count) =>
    let times := max count 1
    match shiftIter baseCmd with
    | none => some (false, st, [.keyPress .Shift, .keyRelease .Shift])
    | some acts =>
      some (true, st,
        .keyPress .Shift :: (List.replicate times acts).flatten ++ [.keyRelease .Shift])

/-- Model of `execute_single_builtin_command` (src/commands.rs lines
920-1096): the synchronous key/chord actions of one built-in; `false` is the
unknown-command arm. -/
def executeSingle (cmd : String) : Bool × List Action :=
  match cmd with
  | "enter" | "new line" | "newline" | "return" => (true, [.keyClick .Return])
  | "tab" => (true, [.keyClick .Tab])
  | "escape" | "cancel" => (true, [.keyClick .Escape])
  | "backspace" | "delete" | "delete that" | "oops" => (true, [.keyClick .Backspace])
  | "space" => (true, [.keyClick .Space])
  | "up" | "arrow up" => (true, [.keyClick .UpArrow])
  | "down" | "arrow down" => (true, [.keyClick .DownArrow])
  | "left" | "arrow left" => (true, [.keyClick .LeftArrow])
  | "right" | "arrow right" => (true, [.keyClick .RightArrow])
  | "home" => (true, [.keyClick .Home])
  | "end" => (true, [.keyClick .End])
  | "page up" => (true, [.keyClick .PageUp])
  | "page down" => (true, [.keyClick .PageDown])
  | "select all" =>
    (true, [.keyPress .Control, .keyClick (.Unicode 'a'), .keyRelease .Control])
  | "copy" | "copy that" =>
    (true, [.keyPress .Control, .keyClick (.Unicode 'c'), .keyRelease .Control])
  | "paste" =>
    (true, [.keyPress .Control, .keyClick (.Unicode 'v'), .keyRelease .Control])
  | "cut" =>
    (true, [.keyPress .Control, .keyClick (.Unicode 'x'), .keyRelease .Control])
  | "undo" =>
    (true, [.keyPress .Control, .keyClick (.Unicode 'z'), .keyRelease .Control])
  | "redo" =>
    (true, [.keyPress .Control, .keyPress .Shift, .keyClick (.Unicode 'z'),
      .keyRelease .Shift, .keyRelease .Control])
  | "save" =>
    (true, [.keyPress .Control, .keyClick (.Unicode 's'), .keyRelease .Control])
  | "find" =>
    (true, [.keyPress .Control, .keyClick (.Unicode 'f'), .keyRelease .Control])
  | "close" | "close tab" =>
    (true, [.keyPress .Control, .keyClick (.Unicode 'w'), .keyRelease .Control])
  | "new tab" =>
    (true, [.keyPress .Control, .keyClick (.Unicode 't'), .keyRelease .Control])
  | "play" | "pause" | "play pause" | "playpause" => (true, [.keyClick .MediaPlayPause])
  | "next" | "next track" | "skip" => (true, [.keyClick .MediaNextTrack])
  | "previous" | "previous track" | "prev" | "back" => (true, [.keyClick .MediaPrevTrack])
  | "volume up" | "louder" => (true, [.keyClick .VolumeUp])
  | "volume down" | "quieter" | "softer" => (true, [.keyClick .VolumeDown])
  | "mute" | "unmute" | "mute toggle" => (true, [.keyClick .VolumeMute])
  | "help" => (true, [])
  | "languages" | "language list" | "list languages" => (true, [])
  | "config" | "settings" | "edit config" => (true, [.openConfig])
  | _ => (false, [])

/-- Repetition loop of the `repeat` branch (src/commands.rs lines 801-803). -/
def repeatLoop : Nat → String → List Action
  | 0, _ => []
  | n + 1, c => (executeSingle c).2 ++ repeatLoop n c

/-- Count loop over `execute_single_builtin_command` (src/commands.rs lines
849-856): stops with `Ok(false)` at the first failing iteration. -/
def singleLoop (base : String) : Nat → Bool × List Action
  | 0 => (true, [])
  | n + 1 =>
    let (ok, tr) := executeSingle base
    if !ok then (false, tr)
    else
      let (ok2, tr2) := singleLoop base n
      (ok2, tr ++ tr2)

/-- Model of `execute_builtin_command` (src/commands.rs lines 784-867). -/
def executeBuiltin (st : CState) (cmd : String) : Option (Bool × CState × List Action) :=
  match parseTimes cmd with
  | none => none
  | some (baseCmd, count) =>
    if baseCmd = "repeat" ∨ rustStartsWith baseCmd "repeat " then
      let repeatCount :=
        if baseCmd = "repeat" then max count 1
        else
          max ((((chopPre "repeat " baseCmd).bind
            (fun s => (splitWs s).head?)).bind parseNumberWord).getD 1) 1 * max count 1
      match st.lastCommand with
      | some c => some (true, st, repeatLoop repeatCount c)
      | none => some (false, st, [])
    else
    match chopPre "shift " baseCmd with
    | some shiftCmd => executeShift st (rustTrim shiftCmd)
    | none =>
    match chopPre "spell " baseCmd with
    | some spellInput => some (executeSpellMode st (rustTrim spellInput))
    | none =>
    match chopPre "hold " baseCmd with
    | some holdKey => some (executeHold st (rustTrim holdKey))
    | none =>
    if baseCmd = "release all" ∨ baseCmd = "release" then
      some (executeReleaseAll st)
    else
    match chopPre "release " baseCmd with
    | some relKey => some (executeRelease st (rustTrim relKey))
    | none =>
    if baseCmd = "scratch that" ∨ baseCmd = "undo" ∨ baseCmd = "scratch" then
      let len := st.lastTypedLen
      let st1 := { st with lastTypedLen := 0 }
      if 0 < len then some (true, st1, List.replicate len (.keyClick .Backspace))
      else some (false, st1, [])
    else
    match chopPre "mode " baseCmd with
    | some modeName => some (executeMode st (rustTrim modeName))
    | none =>
      let (ok, tr) := singleLoop baseCmd (max count 1)
      if ok then some (true, { st with lastCommand := some baseCmd }, tr)
      else some (false, st, tr)

/-- Rust `HashMap::get` over the map in iteration order. -/
def lookupMap (m : List (String × String)) (k : String) : Option String :=
  (m.find? (fun p => p.1 = k)).map (·.2)

/-- Wrapper template split of the wrap subcommand: first `|` separates the
left and right halves; with no `|` the whole template is both halves. -/
def wrapHalves (wrapper : String) : String × String :=
  if wrapper.data.contains '|' then
    (String.mk (wrapper.data.takeWhile (· ≠ '|')),
     String.mk ((wrapper.data.dropWhile (· ≠ '|')).drop 1))
  else (wrapper, wrapper)

/-- Rust `splitn(2, ' ')`: the part before the first space, and the rest. -/
def splitn2Space (s : String) : String × Option String :=
  if s.data.contains ' ' then
    (String.mk (s.data.takeWhile (· ≠ ' ')),
     some (String.mk ((s.data.dropWhile (· ≠ ' ')).drop 1)))
  else (s, none)

/-- Dispatch normal form (`trimmed` of src/commands.rs lines 685-690):
trim, keep alphanumerics and whitespace, lowercase. -/
def dispatchForm (aliased : String) : String :=
  lowerStr (String.mk ((rustTrim aliased).data.filter
    (fun c => rustIsAlnum c || rustIsWs c)))

/-- Leader prefix `format!("{} ", leader.to_lowercase())` of
src/commands.rs line 693. -/
def leaderPre (leader : String) : String := lowerStr leader ++ " "

/-- Model of `execute_command` (src/commands.rs lines 674-780), the
interpreter entry point.  `expandPh` stands for `expand_placeholders`
(src/commands.rs lines 625-668), whose output depends on the wall clock and
on shell command output and is therefore an oracle parameter here.  `none`
models a panic inside `normalize_aliases` or `parse_times_suffix`. -/
def executeCommand (expandPh : String → String) (st : CState)
    (text leader : String)
    (customCommands aliases inserts wrappers : List (String × String)) :
    Option (Bool × CState × List Action) :=
  match normalizeAliases text aliases with
  | none => none
  | some aliased =>
    let trimmed := dispatchForm aliased
    match chopPre (leaderPre leader) trimmed with
    | some afterLeader =>
      let cmd := rustTrim afterLeader
      match chopPre "emoji " cmd with
      | some emojiName => some (executeEmoji st (rustTrim emojiName))
      | none =>
      match (chopPre "punctuation " cmd).orElse (fun _ => chopPre "punk " cmd) with
      | some punct => some (executePunctuation st (rustTrim punct))
      | none =>
      match chopPre "insert " cmd with
      | some insertName =>
        let name := rustTrim insertName
        match lookupMap inserts name with
        | some template =>
          let expanded := expandPh template
          some (true, { st with lastTypedLen := expanded.length },
            [.typeText expanded])
        | none => some (false, st, [])
      | none =>
      match chopPre "wrap " cmd with
      | some wrapRest =>
        let (p0, p1) := splitn2Space wrapRest
        let wrapperName := rustTrim p0
        let wrapText := match p1 with | some t => rustTrim t | none => ""
        match lookupMap wrappers wrapperName with
        | some wrapper =>
          let (left, right) := wrapHalves wrapper
          let wrapped := left ++ wrapText ++ right
          some (true, { st with lastTypedLen := wrapped.length },
            [.typeText wrapped])
        | none => some (false, st, [])
      | none => executeBuiltin st cmd
    | none =>
      let normalizedInput := normalizeForMatching trimmed
      match customCommands.find? (fun p => normalizedInput = normalizeForMatching p.1) with
      | some p => some (true, st, [.customShell p.2])
      | none =>
        let output := applyCaseMode st.mode aliased
        some (false, { st with lastTypedLen := output.length }, [.typeText output])

/-! ### `execute_shift` under a failure oracle (for the chord-safety claim)

`enigo.key` returns a `Result`; the trace semantics above assumes success.
Here each `enigo.key` call of `execute_shift` (src/commands.rs lines
1100-1159) may fail, decided by an oracle indexed by the call number, the
key, and the direction.  A failing call leaves the key state unchanged and
an `?` on it propagates the error out of the function. -/

/-- Direction of an `enigo.key` call. -/
inductive KDir where
  | Press | Release | Click
  deriving DecidableEq, Repr

/-- Pressed-key state of the synthetic keyboard plus the call counter. -/
structure KWorld where
  pressed : List EKey
  idx : Nat
  deriving DecidableEq, Repr

/-- One `enigo.key` call: the oracle decides failure; on success a press
pushes the key, a release erases it, a click leaves the pressed state
unchanged.  Returns the new world and whether the call succeeded. -/
def keyCall (oracle : Nat → EKey → KDir → Bool) (w : KWorld) (k : EKey)
    (d : KDir) : KWorld × Bool :=
  if oracle w.idx k d then ({ w with idx := w.idx + 1 }, false)
  else
    let pressed' :=
      match d with
      | .Press => k :: w.pressed
      | .Release => w.pressed.erase k
      | .Click => w.pressed
    (⟨pressed', w.idx + 1⟩, true)

/-- Result of one iteration body of the `execute_shift` loop. -/
inductive ShiftInner where
  | thrown         -- a `?` inside the match arm propagated (Control press/release failed)
  | res (ok : Bool)  -- the captured `result` of the arm
  | unknown        -- unknown-subcommand arm
  deriving DecidableEq, Repr

/-- Match arm of one loop iteration of `execute_shift` (src/commands.rs
lines 1107-1138). -/
def shiftArm (oracle : Nat → EKey → KDir → Bool) (w : KWorld) :
    String → KWorld × ShiftInner
  | "left" => let (w1, ok) := keyCall oracle w .LeftArrow .Click; (w1, .res ok)
  | "right" => let (w1, ok) := keyCall oracle w .RightArrow .Click; (w1, .res ok)
  | "up" => let (w1, ok) := keyCall oracle w .UpArrow .Click; (w1, .res ok)
  | "down" => let (w1, ok) := keyCall oracle w .DownArrow .Click; (w1, .res ok)
  | "word left" =>
    let (w1, ok1) := keyCall oracle w .Control .Press
    if !ok1 then (w1, .thrown)
    else
      let (w2, r) := keyCall oracle w1 .LeftArrow .Click
      let (w3, ok3) := keyCall oracle w2 .Control .Release
      if !ok3 then (w3, .thrown) else (w3, .res r)
  | "word right" =>
    let (w1, ok1) := keyCall oracle w .Control .Press
    if !ok1 then (w1, .thrown)
    else
      let (w2, r) := keyCall oracle w1 .RightArrow .Click
      let (w3, ok3) := keyCall oracle w2 .Control .Release
      if !ok3 then (w3, .thrown) else (w3, .res r)
  | "home" => let (w1, ok) := keyCall oracle w .Home .Click; (w1, .res ok)
  | "end" => let (w1, ok) := keyCall oracle w .End .Click; (w1, .res ok)
  | "page up" => let (w1, ok) := keyCall oracle w .PageUp .Click; (w1, .res ok)
  | "page down" => let (w1, ok) := keyCall oracle w .PageDown .Click; (w1, .res ok)
  | "tab" => let (w1, ok) := keyCall oracle w .Tab .Click; (w1, .res ok)
  | "enter" | "return" => let (w1, ok) := keyCall oracle w .Return .Click; (w1, .res ok)
  | _ => (w, .unknown)

/-- Loop of `execute_shift` after Shift is pressed: `n` iterations remain.
At `0` the loop is over: release Shift and return `Ok(true)` (an error of
the release itself propagates).  `.thrown` propagates without releasing
Shift; `.unknown` and a failed inner result release Shift first. -/
def shiftORun (oracle : Nat → EKey → KDir → Bool) (base : String) :
    Nat → KWorld → KWorld × Except Unit Bool
  | 0, w =>
    let (w1, ok) := keyCall oracle w .Shift .Release
    (w1, if ok then .ok true else .error ())
  | n + 1, w =>
    match shiftArm oracle w base with
    | (w1, .thrown) => (w1, .error ())
    | (w1, .unknown) =>
      let (w2, ok) := keyCall oracle w1 .Shift .Release
      (w2, if ok then .ok false else .error ())
    | (w1, .res r) =>
      if r then shiftORun oracle base n w1
      else
        let (w2, _) := keyCall oracle w1 .Shift .Release
        (w2, .error ())

/-- Model of `execute_shift` (src/commands.rs lines 1100-1159) under the
failure oracle; the outer `Option` models a `parse_times_suffix` panic. -/
def executeShiftO (oracle : Nat → EKey → KDir → Bool) (w : KWorld)
    (cmd : String) : Option (KWorld × Except Unit Bool) :=
  match parseTimes cmd with
  | none => none
  | some (baseCmd, count) =>
    let (w1, ok) := keyCall oracle w .Shift .Press
    if !ok then some (w1, .error ())
    else some (shiftORun oracle baseCmd (max count 1) w1)

/-! ### Recording sessions and the toggle-timeout task (src/main.rs lines
1519-1592, 1609-1621)

The toggle-mode hotkey handler, the audio callback, and the spawned timeout
tasks interleave; the model is a transition system over the shared state
`RECORDING_SESSION` / `RECORDING` / capture buffer, with the timeout task's
guarded stop (src/main.rs lines 1552-1563) as one step. -/

/-- Shared recording state: the session counter, the gate, the number of
captured samples, and the sizes of utterances queued for transcription. -/
structure SysState where
  session : Nat
  recording : Bool
  buffer : Nat
  queued : List Nat
  deriving DecidableEq, Repr

/-- Interleaved events of the toggle-mode front-end: a hotkey press, the
firing of the timeout task spawned for session `s`, and an audio callback
delivering `n` samples. -/
inductive SysAct where
  | press
  | timeout (s : Nat)
  | capture (n : Nat)
  deriving DecidableEq, Repr

/-- Model of `send_audio` (src/main.rs lines 1489-1513): clone the buffer
and queue it when nonempty (the buffer itself is not cleared here). -/
def sendAudio (st : SysState) : SysState :=
  if st.buffer ≠ 0 then { st with queued := st.queued ++ [st.buffer] } else st

/-- One step of the transition system.  `press` is the toggle branch of the
hotkey callback (src/main.rs lines 1528-1567): stop-and-queue when
recording, else clear the buffer, increment `RECORDING_SESSION` and open the
gate (spawning a timeout task carrying the new session id).  `timeout s` is
the spawned task body (lines 1552-1563): it stops and queues only if the
session counter still equals `s` and the gate is still open.  `capture n`
is the audio callback (lines 1609-1621): appends only while the gate is
open. -/
def sysStep : SysAct → SysState → SysState
  | .press, st =>
    if st.recording then sendAudio { st with recording := false }
    else { st with buffer := 0, session := st.session + 1, recording := true }
  | .timeout s, st =>
    if st.session = s ∧ st.recording then
      sendAudio { st with recording := false }
    else st
  | .capture n, st =>
    if st.recording then { st with buffer := st.buffer + n } else st

/-- Run of the transition system over a schedule of events. -/
def runSys (acts : List SysAct) (st : SysState) : SysState :=
  acts.foldl (fun s a => sysStep a s) st

/-! ### VAD state machine (src/vad.rs)

Audio samples are modelled as exact rationals (the `f32` values are never
inspected by the state machine itself); the Silero detector is an external
black box, modelled as an oracle `pred` giving the speech probability of the
n-th `detector.predict` call; `Instant::now()` is modelled by an explicit
millisecond timestamp `now` passed to `feed`.  The `f32` constants of the
source are modelled as exact rationals: no claim in scope depends on `f32`
rounding (`(16000.0 * 1.2) as usize = 19200` both in `f32` and exactly). -/

/-- Model of `VadState` (src/vad.rs lines 20-29). -/
inductive VadState where
  | Idle | Listening | Speaking | SilenceDetected
  deriving DecidableEq, Repr

/-- Model of `VadEvent` (src/vad.rs lines 33-41). -/
inductive VadEvent where
  | StateChanged (s : VadState)
  | WakeWordCheckReady (audio : List ℚ)
  | ReadyToProcess (audio : List ℚ)
  deriving DecidableEq, Repr

/-- Model of the `Vad` struct (src/vad.rs lines 44-70); `predIdx` counts the
calls made to the black-box detector, timestamps are milliseconds. -/
structure VadM where
  state : VadState
  audioBuffer : List ℚ
  preBuffer : List ℚ
  preBufferMax : Nat
  silenceStart : Option Nat
  speechStart : Option Nat
  sensitivity : ℚ
  silenceMs : Nat
  minSpeechMs : Nat
  speechPadMs : Nat
  chunkBuffer : List ℚ
  wakeWordEnabled : Bool
  wakeWordCheckSamples : Nat
  wakeWordCheckEmitted : Bool
  predIdx : Nat
  deriving DecidableEq, Repr

/-- Model of `Vad::new` (src/vad.rs lines 80-106); the audio buffer is
created empty with `Vec::with_capacity(16000 * 30)` — a capacity hint only,
carrying no length bound. -/
def vadNew (sensitivity : ℚ) (silenceMs minSpeechMs speechPadMs : Nat) : VadM :=
  { state := .Idle
    audioBuffer := []
    preBuffer := []
    preBufferMax := 16000 * speechPadMs / 1000
    silenceStart := none
    speechStart := none
    sensitivity := sensitivity
    silenceMs := silenceMs
    minSpeechMs := minSpeechMs
    speechPadMs := speechPadMs
    chunkBuffer := []
    wakeWordEnabled := false
    wakeWordCheckSamples := 19200
    wakeWordCheckEmitted := false
    predIdx := 0 }

/-- Threshold mapping of src/vad.rs line 174: `1.0 - sensitivity * 0.8`. -/
def vadThreshold (v : VadM) : ℚ := 1 - v.sensitivity * (4 / 5)

/-- Model of `Vad::start_listening` (src/vad.rs lines 119-132). -/
def vadStart (v : VadM) : VadM × Option VadEvent :=
  if v.state = .Idle then
    ({ v with
        state := .Listening
        audioBuffer := []
        chunkBuffer := []
        preBuffer := []
        silenceStart := none
        speechStart := none
        wakeWordCheckEmitted := false },
     some (.StateChanged .Listening))
  else (v, none)

/-- Model of `Vad::stop_listening` (src/vad.rs lines 135-148). -/
def vadStop (v : VadM) : VadM × Option VadEvent :=
  if v.state ≠ .Idle then
    ({ v with
        state := .Idle
        audioBuffer := []
        chunkBuffer := []
        preBuffer := []
        silenceStart := none
        speechStart := none
        wakeWordCheckEmitted := false },
     some (.StateChanged .Idle))
  else (v, none)

/-- Processing of one 512-sample chunk: the body of the `while` loop of
`Vad::feed` (src/vad.rs lines 164-257).  `detector.predict` is the oracle
call `pred v.predIdx`; every branch advances the call counter. -/
def processChunk (pred : Nat → ℚ) (now : Nat) (v : VadM) (chunk : List ℚ) :
    VadM × List VadEvent :=
  let isSpeech := vadThreshold v ≤ pred v.predIdx
  match v.state with
  | .Idle => ({ v with predIdx := v.predIdx + 1 }, [])
  | .Listening =>
    let pb0 := v.preBuffer ++ chunk
    let pb := if v.preBufferMax < pb0.length
      then pb0.drop (pb0.length - v.preBufferMax) else pb0
    if isSpeech then
      ({ v with
          predIdx := v.predIdx + 1
          state := .Speaking
          speechStart := some now
          audioBuffer := pb ++ chunk
          preBuffer := [] },
       [.StateChanged .Speaking])
    else ({ v with predIdx := v.predIdx + 1, preBuffer := pb }, [])
  | .Speaking =>
    let buf := v.audioBuffer ++ chunk
    let wake := v.wakeWordEnabled ∧ ¬v.wakeWordCheckEmitted ∧
      v.wakeWordCheckSamples ≤ buf.length
    let evs1 : List VadEvent :=
      if wake then [.WakeWordCheckReady (buf.take v.wakeWordCheckSamples)] else []
    let emitted := if wake then true else v.wakeWordCheckEmitted
    if isSpeech then
      ({ v with
          predIdx := v.predIdx + 1
          audioBuffer := buf
          wakeWordCheckEmitted := emitted }, evs1)
    else
      ({ v with
          predIdx := v.predIdx + 1
          audioBuffer := buf
          wakeWordCheckEmitted := emitted
          state := .SilenceDetected
          silenceStart := some now },
       evs1 ++ [.StateChanged .SilenceDetected])
  | .SilenceDetected =>
    let buf := v.audioBuffer ++ chunk
    if isSpeech then
      ({ v with
          predIdx := v.predIdx + 1
          audioBuffer := buf
          state := .Speaking
          silenceStart := none },
       [.StateChanged .Speaking])
    else
      match v.silenceStart with
      | some t =>
        if v.silenceMs + v.speechPadMs ≤ now - t then
          let speechDur := match v.speechStart with | some s => now - s | none => 0
          let emit := v.minSpeechMs ≤ speechDur
          ({ v with
              predIdx := v.predIdx + 1
              audioBuffer := if emit then [] else buf
              state := .Listening
              silenceStart := none
              speechStart := none
              chunkBuffer := []
              wakeWordCheckEmitted := false },
           (if emit then [VadEvent.ReadyToProcess buf] else []) ++
             [.StateChanged .Listening])
        else ({ v with predIdx := v.predIdx + 1, audioBuffer := buf }, [])
      | none => ({ v with predIdx := v.predIdx + 1, audioBuffer := buf }, [])

/-- Chunk-draining loop of `Vad::feed`: while at least 512 samples are
buffered, drain one chunk and process it.  The fuel passed by `vadFeed`
exceeds the buffered-sample count, and every iteration consumes 512 samples
(the `SilenceDetected → Listening` reset even clears the buffer), so the
fuel never runs out on the calls made here. -/
def feedGo (pred : Nat → ℚ) (now : Nat) :
    Nat → VadM → List VadEvent → VadM × List VadEvent
  | 0, v, acc => (v, acc)
  | fuel + 1, v, acc =>
    if 512 ≤ v.chunkBuffer.length then
      let chunk := v.chunkBuffer.take 512
      let v1 := { v with chunkBuffer := v.chunkBuffer.drop 512 }
      let (v2, evs) := processChunk pred now v1 chunk
      feedGo pred now fuel v2 (acc ++ evs)
    else (v, acc)

/-- Model of `Vad::feed` (src/vad.rs lines 152-261): drop everything while
`Idle`, otherwise append the samples to the chunk buffer and process whole
chunks. -/
def vadFeed (pred : Nat → ℚ) (now : Nat) (v : VadM) (samples : List ℚ) :
    VadM × List VadEvent :=
  if v.state = .Idle then (v, [])
  else
    let v1 := { v with chunkBuffer := v.chunkBuffer ++ samples }
    feedGo pred now (v1.chunkBuffer.length + 1) v1 []

/-- Model of `Vad::abort_utterance` (src/vad.rs lines 265-277). -/
def vadAbort (v : VadM) : VadM × Option VadEvent :=
  if v.state = .Speaking ∨ v.state = .SilenceDetected then
    ({ v with
        audioBuffer := []
        chunkBuffer := []
        silenceStart := none
        speechStart := none
        wakeWordCheckEmitted := false
        state := .Listening },
     some (.StateChanged .Listening))
  else (v, none)

/-- Model of `Vad::reset` (src/vad.rs lines 280-290): clears all buffers and
moves any non-`Idle` state to `Listening`; its return type is `()` — it can
emit no event. -/
def vadReset (v : VadM) : VadM :=
  { v with
    audioBuffer := []
    chunkBuffer := []
    preBuffer := []
    silenceStart := none
    speechStart := none
    wakeWordCheckEmitted := false
    state := if v.state ≠ .Idle then .Listening else v.state }

/-- Model of `Vad::set_wake_word_enabled` (src/vad.rs lines 114-116). -/
def vadSetWake (v : VadM) (enabled : Bool) : VadM :=
  { v with wakeWordEnabled := enabled }

/-- Uniform operations on the VAD, pairing each public mutating method with
the events it emits (`reset` and `set_wake_word_enabled` return `()` in the
source and emit none). -/
inductive VadOp where
  | start
  | stop
  | feed (pred : Nat → ℚ) (now : Nat) (samples : List ℚ)
  | abort
  | reset
  | setWake (enabled : Bool)

/-- Step of one VAD operation. -/
def vadOpStep : VadOp → VadM → VadM × List VadEvent
  | .start, v => let (v1, e) := vadStart v; (v1, e.toList)
  | .stop, v => let (v1, e) := vadStop v; (v1, e.toList)
  | .feed pred now samples, v => vadFeed pred now v samples
  | .abort, v => let (v1, e) := vadAbort v; (v1, e.toList)
  | .reset, v => (vadReset v, [])
  | .setWake b, v => (vadSetWake v b, [])

/-! ## Theorems -/

/-- C2: for every recording session s, a toggle-timeout task spawned for
session s never clears the RECORDING flag once the session counter no longer
equals s: the guarded timeout step is the identity whenever the counter
differs from s; the counter is monotone under every event; and consequently
once the counter has passed s, an entire schedule behaves identically with
all `timeout s` firings removed — a stale timeout can never close a newer
session's capture. -/
theorem c2_stale_timeout_never_stops (st : SysState) (s : Nat)
    (acts : List SysAct) (h : s < st.session) :
    (∀ (st2 : SysState), st2.session ≠ s → sysStep (.timeout s) st2 = st2) ∧
    (∀ (a : SysAct) (st2 : SysState), st2.session ≤ (sysStep a st2).session) ∧
    runSys acts st = runSys (acts.filter (fun a => a ≠ SysAct.timeout s)) st := by
  have hnoop : ∀ (st2 : SysState), st2.session ≠ s → sysStep (.timeout s) st2 = st2 := by
    intro st2 hne
    simp only [sysStep]
    rw [if_neg]
    rintro ⟨h1, _⟩
    exact hne h1
  have hmono : ∀ (a : SysAct) (st2 : SysState), st2.session ≤ (sysStep a st2).session := by
    intro a st2
    cases a with
    | press =>
      by_cases hr : st2.recording <;> simp [sysStep, hr, sendAudio] <;> split <;> simp
    | timeout s2 =>
      simp only [sysStep]
      split
      · simp [sendAudio]; split <;> simp
      · exact le_refl _
    | capture n =>
      simp only [sysStep]; split <;> simp
  refine ⟨hnoop, hmono, ?_⟩
  induction acts generalizing st with
  | nil => rfl
  | cons a rest ih =>
    by_cases ha : a = SysAct.timeout s
    · subst ha
      have hne : st.session ≠ s := (Nat.lt_iff_le_and_ne.mp h).2.symm
      simp only [runSys, List.foldl_cons, List.filter_cons]
      rw [hnoop st hne]
      have : (decide ¬(SysAct.timeout s = SysAct.timeout s)) = false := by simp
      simp only [ne_eq, this, Bool.false_eq_true, if_false]
      exact ih st h
    · simp only [runSys, List.foldl_cons, List.filter_cons]
      have : (decide ¬(a = SysAct.timeout s)) = true := by simpa using ha
      simp only [ne_eq, this, if_true, List.foldl_cons]
      exact ih (sysStep a st) (lt_of_lt_of_le h (hmono a st))

/-- C2 witness: in a state with session counter 3 and the gate open, the
timeout task of stale session 1 changes nothing, and a schedule behaves the
same with that firing removed. -/
theorem c2_stale_timeout_witness :
    sysStep (SysAct.timeout 1) ⟨3, true, 7, []⟩ = ⟨3, true, 7, []⟩ ∧
    runSys [SysAct.timeout 1, SysAct.capture 5] ⟨3, true, 7, []⟩ =
      runSys (List.filter (fun a => a ≠ SysAct.timeout 1)
        [SysAct.timeout 1, SysAct.capture 5]) ⟨3, true, 7, []⟩ := by
  have h := c2_stale_timeout_never_stops ⟨3, true, 7, []⟩ 1
    [SysAct.timeout 1, SysAct.capture 5] (by decide)
  exact ⟨h.1 ⟨3, true, 7, []⟩ (by decide), h.2.2⟩

/-- C6 counterexample: the claim says `Unicode('w')` and `Unicode('a')` are
DISTINCT held entries and that after `hold w` then `hold a` both are present
and both re-clicked.  In the code `HeldKey` equality is by
`std::mem::discriminant`, which ignores the `Unicode` payload: the second
insert is a no-op, the set holds only `Unicode('w')`, `Unicode('a')` is not
a member, and the repeat cycle clicks only `w`. -/
theorem c6_counterexample :
    (executeHold (executeHold ⟨0, none, .Off, []⟩ "w").2.1 "a").2.1.heldKeys =
      [EKey.Unicode 'w'] ∧
    EKey.Unicode 'a' ∉
      (executeHold (executeHold ⟨0, none, .Off, []⟩ "w").2.1 "a").2.1.heldKeys ∧
    holdCycleClicks
      (executeHold (executeHold ⟨0, none, .Off, []⟩ "w").2.1 "a").2.1.heldKeys =
      [Action.keyClick (EKey.Unicode 'w')] := by
  decide

/-- C6 amended: membership in the held-keys set is by key-kind discriminant,
under which all arrow-up keys are one entry AND all `Unicode` keys are one
entry: inserting a key whose kind is already present is a no-op (so after
`hold w` followed by `hold a` only `Unicode('w')` is held and re-clicked,
per the counterexample). -/
theorem c6_discriminant_membership (held : List EKey) (k k2 : EKey)
    (hmem : k ∈ held) (hdis : keyDiscr k = keyDiscr k2) :
    heldInsert held k2 = held ∧
    (∀ c1 c2 : Char, heldInsert [EKey.Unicode c1] (EKey.Unicode c2) = [EKey.Unicode c1]) ∧
    (∀ l : List EKey, EKey.UpArrow ∈ l → heldInsert l EKey.UpArrow = l) := by
  have key : ∀ (l : List EKey) (a b : EKey), a ∈ l → keyDiscr a = keyDiscr b →
      heldInsert l b = l := by
    intro l a b hm hd
    have : heldContains l b = true := by
      simp only [heldContains, List.any_eq_true]
      exact ⟨a, hm, by simp [hd]⟩
    simp [heldInsert, this]
  refine ⟨key held k k2 hmem hdis, ?_, ?_⟩
  · intro c1 c2
    exact key _ (EKey.Unicode c1) (EKey.Unicode c2) (by simp) rfl
  · intro l hm
    exact key l EKey.UpArrow EKey.UpArrow hm rfl

/-- C6 witness: inserting `Unicode('a')` into a set holding `Unicode('w')`
leaves the set unchanged. -/
theorem c6_discriminant_witness :
    heldInsert [EKey.Unicode 'w'] (EKey.Unicode 'a') = [EKey.Unicode 'w'] :=
  (c6_discriminant_membership [EKey.Unicode 'w'] (EKey.Unicode 'w')
    (EKey.Unicode 'a') (by simp) rfl).1

/-- C9: for any interpreter state, the commands `scratch that`, `undo` and
`scratch` issue exactly Last-Typed-Length Backspace clicks and zero the
counter; when the counter is already zero they issue no keystrokes and
return not-executed (`Ok(false)`). -/
theorem c9_scratch_backspaces (st : CState) (cmd : String)
    (h : cmd = "scratch that" ∨ cmd = "undo" ∨ cmd = "scratch") :
    executeBuiltin st cmd =
      if 0 < st.lastTypedLen then
        some (true, { st with lastTypedLen := 0 },
          List.replicate st.lastTypedLen (Action.keyClick EKey.Backspace))
      else some (false, { st with lastTypedLen := 0 }, []) := by
  rcases h with h | h | h <;> subst h <;> rfl

/-- C9 witness: with Last-Typed-Length 3, `undo` issues exactly three
Backspace clicks and zeroes the counter; with it already 0, `scratch that`
issues nothing and is not-executed. -/
theorem c9_scratch_witness :
    executeBuiltin ⟨3, none, CaseMode.Off, []⟩ "undo" =
      some (true, ⟨0, none, CaseMode.Off, []⟩,
        [Action.keyClick EKey.Backspace, Action.keyClick EKey.Backspace,
         Action.keyClick EKey.Backspace]) ∧
    executeBuiltin ⟨0, none, CaseMode.Off, []⟩ "scratch that" =
      some (false, ⟨0, none, CaseMode.Off, []⟩, []) := by
  constructor
  · have h := c9_scratch_backspaces ⟨3, none, CaseMode.Off, []⟩ "undo"
      (Or.inr (Or.inl rfl))
    simpa using h
  · have h := c9_scratch_backspaces ⟨0, none, CaseMode.Off, []⟩ "scratch that"
      (Or.inl rfl)
    simpa using h

section ShiftChord

/-- Helper: a click never changes the pressed-key state, whether it succeeds
or fails. -/
lemma keyCall_click_pressed (oracle : Nat → EKey → KDir → Bool) (w : KWorld)
    (k : EKey) : (keyCall oracle w k .Click).1.pressed = w.pressed := by
  simp only [keyCall]
  split <;> rfl

/-- Helper: a press that the oracle lets succeed pushes the key. -/
lemma keyCall_press_ok (oracle : Nat → EKey → KDir → Bool) (w : KWorld)
    (k : EKey) (h : oracle w.idx k .Press = false) :
    keyCall oracle w k .Press = (⟨k :: w.pressed, w.idx + 1⟩, true) := by
  simp [keyCall, h]

/-- Helper: a release that the oracle lets succeed erases the key. -/
lemma keyCall_release_ok (oracle : Nat → EKey → KDir → Bool) (w : KWorld)
    (k : EKey) (h : oracle w.idx k .Release = false) :
    keyCall oracle w k .Release = (⟨w.pressed.erase k, w.idx + 1⟩, true) := by
  simp [keyCall, h]

/-- Helper: when presses and releases always succeed, every iteration body of
`execute_shift` restores the pressed-key state and never propagates a
modifier error. -/
lemma shiftArm_pressed (oracle : Nat → EKey → KDir → Bool)
    (hpr : ∀ i k d, d ≠ KDir.Click → oracle i k d = false)
    (w : KWorld) (base : String) :
    (shiftArm oracle w base).1.pressed = w.pressed ∧
    (shiftArm oracle w base).2 ≠ .thrown := by
  have hword : ∀ (ar : EKey),
      ((let (w1, ok1) := keyCall oracle w .Control .Press
        if !ok1 then (w1, ShiftInner.thrown)
        else
          let (w2, r) := keyCall oracle w1 ar .Click
          let (w3, ok3) := keyCall oracle w2 .Control .Release
          if !ok3 then (w3, ShiftInner.thrown) else (w3, ShiftInner.res r)) :
        KWorld × ShiftInner).1.pressed = w.pressed ∧
      ((let (w1, ok1) := keyCall oracle w .Control .Press
        if !ok1 then (w1, ShiftInner.thrown)
        else
          let (w2, r) := keyCall oracle w1 ar .Click
          let (w3, ok3) := keyCall oracle w2 .Control .Release
          if !ok3 then (w3, ShiftInner.thrown) else (w3, ShiftInner.res r)) :
        KWorld × ShiftInner).2 ≠ .thrown := by
    intro ar
    rw [keyCall_press_ok _ _ _ (hpr _ _ _ (by decide))]
    simp only [Bool.not_true, Bool.false_eq_true, if_false]
    cases hk : keyCall oracle ⟨EKey.Control :: w.pressed, w.idx + 1⟩ ar .Click with
    | mk w2 r =>
      have hw2 : w2.pressed = EKey.Control :: w.pressed := by
        have := keyCall_click_pressed oracle ⟨EKey.Control :: w.pressed, w.idx + 1⟩ ar
        rw [hk] at this
        exact this
      rw [keyCall_release_ok _ _ _ (hpr _ _ _ (by decide))]
      simp [hw2]
  unfold shiftArm
  split
  all_goals first
    | (constructor
       · exact keyCall_click_pressed oracle w _
       · cases hk : keyCall oracle w _ KDir.Click with
         | mk w1 ok => simp)
    | exact hword .LeftArrow
    | exact hword .RightArrow
    | simp

/-- Helper: when presses and releases always succeed, the `execute_shift`
loop entered with Shift freshly pressed always exits with the entry
pressed-key state. -/
lemma shiftORun_pressed (oracle : Nat → EKey → KDir → Bool)
    (hpr : ∀ i k d, d ≠ KDir.Click → oracle i k d = false) (base : String) :
    ∀ (n : Nat) (w : KWorld) (P : List EKey), w.pressed = EKey.Shift :: P →
      (shiftORun oracle base n w).1.pressed = P := by
  intro n
  induction n with
  | zero =>
    intro w P hw
    simp only [shiftORun]
    rw [keyCall_release_ok _ _ _ (hpr _ _ _ (by decide)), hw]
    simp
  | succ n ih =>
    intro w P hw
    simp only [shiftORun]
    have harm := shiftArm_pressed oracle hpr w base
    cases hA : shiftArm oracle w base with
    | mk w1 inner =>
      rw [hA] at harm
      have hw1 : w1.pressed = EKey.Shift :: P := by rw [harm.1, hw]
      cases inner with
      | thrown => exact absurd rfl harm.2
      | unknown =>
        dsimp only
        rw [keyCall_release_ok _ _ _ (hpr _ _ _ (by decide)), hw1]
        simp
      | res r =>
        cases r with
        | true => simpa using ih w1 P hw1
        | false =>
          dsimp only
          rw [keyCall_release_ok _ _ _ (hpr _ _ _ (by decide)), hw1]
          simp

end ShiftChord

/-- C7 counterexample: the claim says the pressed-key set on exit equals the
set on entry on EVERY exit path of the shift chord.  On `command shift word
left`, when the Control press itself returns an error, the `?` on it
propagates out of `execute_shift` before Shift is released: the function
exits with Shift still pressed (entry set was empty). -/
theorem c7_counterexample :
    (executeShiftO (fun i _ _ => i == 1) ⟨[], 0⟩ "word left").map
      (fun r => r.1.pressed) = some [EKey.Shift] ∧
    ([EKey.Shift] : List EKey) ≠ [] := by
  constructor
  · rfl
  · decide

/-- C7 amended: on every exit path on which no modifier Press or Release
call itself fails (inner key CLICKS may fail arbitrarily, and the
subcommand may be unknown), `execute_shift` exits with the pressed-key set
it entered with: Shift (and Control for word-left/word-right) is released,
for every subcommand string and every count. -/
theorem c7_chord_balance (oracle : Nat → EKey → KDir → Bool) (w : KWorld)
    (cmd : String) (r : KWorld × Except Unit Bool)
    (hpr : ∀ i k d, d ≠ KDir.Click → oracle i k d = false)
    (hr : executeShiftO oracle w cmd = some r) :
    r.1.pressed = w.pressed := by
  unfold executeShiftO at hr
  cases hp : parseTimes cmd with
  | none => rw [hp] at hr; cases hr
  | some bc =>
    obtain ⟨base, count⟩ := bc
    rw [hp] at hr
    rw [keyCall_press_ok _ _ _ (hpr _ _ _ (by decide))] at hr
    simp only [Bool.not_true, Bool.false_eq_true, if_false, Option.some.injEq] at hr
    subst hr
    exact shiftORun_pressed oracle hpr base (max count 1)
      ⟨EKey.Shift :: w.pressed, w.idx + 1⟩ w.pressed rfl

/-- C7 witness: a `word right` chord from a world with Alt pressed, under an
oracle that fails nothing, exits with exactly Alt pressed. -/
theorem c7_chord_witness :
    executeShiftO (fun _ _ _ => false) ⟨[EKey.Alt], 0⟩ "word right" =
      some (⟨[EKey.Alt], 5⟩, Except.ok true) ∧
    (⟨[EKey.Alt], 5⟩ : KWorld).pressed = [EKey.Alt] :=
  ⟨rfl, c7_chord_balance (fun _ _ _ => false) ⟨[EKey.Alt], 0⟩ "word right"
    (⟨[EKey.Alt], 5⟩, Except.ok true) (fun _ _ _ _ => rfl) rfl⟩

/-- C8: for every dictated text T, when Mode is Off, the dispatch form of the
alias-substituted text does not begin with the leader prefix, and no
configured custom command matches, the interpreter types exactly
`apply_aliases(T)` — the alias-substituted text, case preserved — and
nothing else (round trip). -/
theorem c8_dictation_roundtrip (expandPh : String → String) (st : CState)
    (text leader : String) (cc al ins wr : List (String × String))
    (aliased : String)
    (h1 : normalizeAliases text al = some aliased)
    (h2 : st.mode = CaseMode.Off)
    (h3 : chopPre (leaderPre leader) (dispatchForm aliased) = none)
    (h4 : ∀ p ∈ cc,
      normalizeForMatching (dispatchForm aliased) ≠ normalizeForMatching p.1) :
    executeCommand expandPh st text leader cc al ins wr =
      some (false, { st with lastTypedLen := aliased.length },
        [Action.typeText aliased]) := by
  have hfind : cc.find?
      (fun p => normalizeForMatching (dispatchForm aliased) = normalizeForMatching p.1)
      = none := by
    rw [List.find?_eq_none]
    intro p hp
    simpa using h4 p hp
  have hmode : applyCaseMode st.mode aliased = aliased := by
    rw [h2]; rfl
  unfold executeCommand
  rw [h1]
  simp only [h3, hfind, hmode]

/-- C8 witness: the dictation-passthrough scenario — aliases
`e max → emacs`, Mode Off, transcript `launch e max` — types exactly
`launch emacs` (12 characters). -/
theorem c8_dictation_witness :
    executeCommand id ⟨0, none, CaseMode.Off, []⟩ "launch e max" "command"
      [] [("e max", "emacs")] [] [] =
      some (false, ⟨12, none, CaseMode.Off, []⟩,
        [Action.typeText "launch emacs"]) := by
  have h := c8_dictation_roundtrip id ⟨0, none, CaseMode.Off, []⟩
    "launch e max" "command" [] [("e max", "emacs")] [] [] "launch emacs"
    (by decide) rfl (by decide) (by simp)
  simpa using h

/-- C1 counterexample: the claim says every typing path sets
Last-Typed-Length, in particular that after `command emoji fire` it equals
1.  In the code `execute_emoji` types the glyph but never touches
`LAST_TYPED_LEN`: starting from counter 0, the run types the fire glyph
(one codepoint) yet the counter stays 0 ≠ 1. -/
theorem c1_counterexample :
    executeCommand id ⟨0, none, CaseMode.Off, []⟩ "command emoji fire"
      "command" [] [] [] [] =
      some (true, ⟨0, none, CaseMode.Off, []⟩, [Action.typeText "🔥"]) ∧
    ("🔥" : String).length = 1 ∧ (0 : Nat) ≠ 1 := by
  refine ⟨rfl, rfl, by decide⟩

/-- C1 amended: Last-Typed-Length is set to the codepoint count of the text
just typed on the insert-expansion, wrap, and dictation-fallthrough paths;
the emoji, punctuation, and spell-mode paths type text WITHOUT touching any
interpreter state, so Last-Typed-Length keeps its previous value there (in
particular `command emoji fire` leaves it unchanged rather than setting it
to 1). -/
theorem c1_typed_length (expandPh : String → String) (st : CState)
    (text leader : String) (cc al ins wr : List (String × String))
    (aliased rest nm template wname wrest wtext wrapper : String)
    (h1 : normalizeAliases text al = some aliased)
    (hleader : chopPre (leaderPre leader) (dispatchForm aliased) = some rest) :
    (∀ (st2 : CState) (name : String), (executeEmoji st2 name).2.1 = st2) ∧
    (∀ (st2 : CState) (p : String), (executePunctuation st2 p).2.1 = st2) ∧
    (∀ (st2 : CState) (i : String), (executeSpellMode st2 i).2.1 = st2) ∧
    (chopPre "emoji " (rustTrim rest) = none →
     chopPre "punctuation " (rustTrim rest) = none →
     chopPre "punk " (rustTrim rest) = none →
     chopPre "insert " (rustTrim rest) = some nm →
     lookupMap ins (rustTrim nm) = some template →
     executeCommand expandPh st text leader cc al ins wr =
       some (true, { st with lastTypedLen := (expandPh template).length },
         [Action.typeText (expandPh template)])) ∧
    (chopPre "emoji " (rustTrim rest) = none →
     chopPre "punctuation " (rustTrim rest) = none →
     chopPre "punk " (rustTrim rest) = none →
     chopPre "insert " (rustTrim rest) = none →
     chopPre "wrap " (rustTrim rest) = some wrest →
     splitn2Space wrest = (wname, some wtext) →
     lookupMap wr (rustTrim wname) = some wrapper →
     executeCommand expandPh st text leader cc al ins wr =
       some (true,
         { st with lastTypedLen :=
             ((wrapHalves wrapper).1 ++ rustTrim wtext ++ (wrapHalves wrapper).2).length },
         [Action.typeText
           ((wrapHalves wrapper).1 ++ rustTrim wtext ++ (wrapHalves wrapper).2)])) := by
  refine ⟨fun st2 name => ?_, fun st2 p => ?_, fun st2 i => ?_, ?_, ?_⟩
  · unfold executeEmoji
    cases emojiLookup name <;> rfl
  · unfold executePunctuation
    cases punctLookup p <;> rfl
  · unfold executeSpellMode
    by_cases h : (String.mk (spellChars (splitWs i) false)).data.isEmpty <;> simp [h]
  · intro he hp1 hp2 hi hm
    unfold executeCommand
    rw [h1]
    simp only [hleader, he, hp1, hp2, hi, hm]
    rfl
  · intro he hp1 hp2 hi hw hsp hm
    unfold executeCommand
    rw [h1]
    simp only [hleader, he, hp1, hp2, hi, hw, hsp, hm]
    rfl

/-- C1 witness: `command insert sig` with an insert template expanding to
`cheers` sets Last-Typed-Length to 6 and types `cheers`; the spell path
leaves the state untouched. -/
theorem c1_typed_length_witness :
    executeCommand id ⟨0, none, CaseMode.Off, []⟩ "command insert sig"
      "command" [] [] [("sig", "cheers")] [] =
      some (true, ⟨6, none, CaseMode.Off, []⟩, [Action.typeText "cheers"]) ∧
    (executeSpellMode ⟨9, none, CaseMode.Off, []⟩ "alpha bravo").2.1 =
      ⟨9, none, CaseMode.Off, []⟩ := by
  have h := c1_typed_length id ⟨0, none, CaseMode.Off, []⟩ "command insert sig"
    "command" [] [] [("sig", "cheers")] [] "command insert sig" "insert sig"
    "sig" "cheers" "" "" "" "" (by decide) (by decide)
  refine ⟨?_, h.2.2.1 ⟨9, none, CaseMode.Off, []⟩ "alpha bravo"⟩
  have h4 := h.2.2.2.1 (by decide) (by decide) (by decide) (by decide) (by decide)
  simpa using h4

/-! ### VAD demonstration runs shared by the VAD theorems -/

/-- Probability oracle for the demonstration runs: speech on the first
detector call, silence afterwards. -/
def vadDemoPred : Nat → ℚ := fun i => if i = 0 then 9 / 10 else 1 / 10

/-- Demonstration VAD: sensitivity 0.5, silence 1000 ms, min-speech 200 ms,
pad 300 ms (threshold 0.6). -/
def vadDemoNew : VadM := vadNew (1 / 2) 1000 200 300

/-- State after `start_listening` and one 512-sample speech chunk fed at
t = 0 ms: `Speaking`, 1024 buffered samples (pre-roll plus chunk). -/
def vadDemoSpeaking : VadM :=
  (vadFeed vadDemoPred 0 (vadStart vadDemoNew).1 (List.replicate 512 0)).1

/-- State after a further silence chunk at t = 500 ms: `SilenceDetected`
with 1536 buffered samples. -/
def vadDemoSilence : VadM :=
  (vadFeed vadDemoPred 500 vadDemoSpeaking (List.replicate 512 0)).1

section VadTransitions

/-- Helper: a single chunk step that changes the VAD state pushes a
`StateChanged` event carrying the new state. -/
lemma processChunk_state_change (pred : Nat → ℚ) (now : Nat) (v : VadM)
    (chunk : List ℚ)
    (h : (processChunk pred now v chunk).1.state ≠ v.state) :
    VadEvent.StateChanged (processChunk pred now v chunk).1.state ∈
      (processChunk pred now v chunk).2 := by
  unfold processChunk at h ⊢
  dsimp only at h ⊢
  by_cases hsp : vadThreshold v ≤ pred v.predIdx <;>
    cases hv : v.state <;> rw [hv] at h <;> dsimp only at h ⊢
  case pos.Idle => exact absurd rfl h
  case pos.Listening => rw [if_pos hsp]; simp
  case pos.Speaking => rw [if_pos hsp] at h; exact absurd rfl h
  case pos.SilenceDetected => rw [if_pos hsp]; simp
  case neg.Idle => exact absurd rfl h
  case neg.Listening => rw [if_neg hsp] at h; exact absurd rfl h
  case neg.Speaking => rw [if_neg hsp]; simp
  case neg.SilenceDetected =>
    rw [if_neg hsp] at h ⊢
    cases hss : v.silenceStart <;> rw [hss] at h <;> dsimp only at h ⊢
    case none => exact absurd rfl h
    case some t =>
      by_cases hel : v.silenceMs + v.speechPadMs ≤ now - t
      · rw [if_pos hel]; simp
      · rw [if_neg hel] at h; exact absurd rfl h

/-- Helper: anything already accumulated stays in the event list of the
chunk-draining loop. -/
lemma feedGo_acc_mem (pred : Nat → ℚ) (now : Nat) (x : VadEvent) :
    ∀ (fuel : Nat) (v : VadM) (acc : List VadEvent),
      x ∈ acc → x ∈ (feedGo pred now fuel v acc).2 := by
  intro fuel
  induction fuel with
  | zero => intro v acc h; exact h
  | succ n ih =>
    intro v acc h
    simp only [feedGo]
    split
    · cases hpc : processChunk pred now
        { v with chunkBuffer := v.chunkBuffer.drop 512 } (v.chunkBuffer.take 512) with
      | mk v2 evs =>
        dsimp only
        exact ih v2 (acc ++ evs) (List.mem_append_left _ h)
    · exact h

/-- Helper: a chunk-draining loop whose final state differs from its entry
state pushes a `StateChanged` event carrying the final state. -/
lemma feedGo_state_change (pred : Nat → ℚ) (now : Nat) :
    ∀ (fuel : Nat) (v : VadM) (acc : List VadEvent),
      (feedGo pred now fuel v acc).1.state ≠ v.state →
      VadEvent.StateChanged (feedGo pred now fuel v acc).1.state ∈
        (feedGo pred now fuel v acc).2 := by
  intro fuel
  induction fuel with
  | zero => intro v acc h; exact absurd rfl h
  | succ n ih =>
    intro v acc h
    simp only [feedGo] at h ⊢
    by_cases hc : 512 ≤ v.chunkBuffer.length
    · rw [if_pos hc] at h ⊢
      cases hpc : processChunk pred now
        { v with chunkBuffer := v.chunkBuffer.drop 512 } (v.chunkBuffer.take 512) with
      | mk v2 evs =>
        dsimp only at h ⊢
        rw [hpc] at h
        dsimp only at h
        by_cases h2 : (feedGo pred now n v2 (acc ++ evs)).1.state = v2.state
        · have hne : (processChunk pred now
              { v with chunkBuffer := v.chunkBuffer.drop 512 }
              (v.chunkBuffer.take 512)).1.state ≠
              ({ v with chunkBuffer := v.chunkBuffer.drop 512 } : VadM).state := by
            rw [hpc]
            dsimp only
            rw [h2] at h
            exact h
          have hmem := processChunk_state_change pred now
            { v with chunkBuffer := v.chunkBuffer.drop 512 }
            (v.chunkBuffer.take 512) hne
          rw [hpc] at hmem
          dsimp only at hmem
          rw [h2]
          exact feedGo_acc_mem pred now _ n v2 (acc ++ evs)
            (List.mem_append_right _ hmem)
        · exact ih v2 (acc ++ evs) h2
    · rw [if_neg hc] at h ⊢
      exact absurd rfl h

/-- Helper: unfolding equation of `feedGo` when a whole chunk is buffered. -/
lemma feedGo_succ (pred : Nat → ℚ) (now : Nat) (fuel : Nat) (v : VadM)
    (acc : List VadEvent) (h : 512 ≤ v.chunkBuffer.length) :
    feedGo pred now (fuel + 1) v acc =
      feedGo pred now fuel
        (processChunk pred now { v with chunkBuffer := v.chunkBuffer.drop 512 }
          (v.chunkBuffer.take 512)).1
        (acc ++ (processChunk pred now
          { v with chunkBuffer := v.chunkBuffer.drop 512 }
          (v.chunkBuffer.take 512)).2) := by
  simp [feedGo, h]

/-- Helper: unfolding equation of `feedGo` when less than a chunk remains. -/
lemma feedGo_stop (pred : Nat → ℚ) (now : Nat) (fuel : Nat) (v : VadM)
    (acc : List VadEvent) (h : ¬ 512 ≤ v.chunkBuffer.length) :
    feedGo pred now fuel v acc = (v, acc) := by
  cases fuel <;> simp [feedGo, h]

/-- Helper: unfolding equation of `vadFeed` outside `Idle`. -/
lemma vadFeed_eq (pred : Nat → ℚ) (now : Nat) (v : VadM) (samples : List ℚ)
    (h : ¬ v.state = .Idle) :
    vadFeed pred now v samples =
      feedGo pred now ((v.chunkBuffer ++ samples).length + 1)
        { v with chunkBuffer := v.chunkBuffer ++ samples } [] := by
  simp [vadFeed, h]

/-- Helper: chunk equation — Listening, speech frame, pre-roll under the
cap: transition to Speaking, buffer := pre-roll plus the chunk again. -/
lemma processChunk_listening_speech (pred : Nat → ℚ) (now : Nat) (v : VadM)
    (chunk : List ℚ) (hst : v.state = .Listening)
    (hsp : vadThreshold v ≤ pred v.predIdx)
    (hcap : ¬ v.preBufferMax < (v.preBuffer ++ chunk).length) :
    processChunk pred now v chunk =
      ({ v with
          predIdx := v.predIdx + 1
          state := .Speaking
          speechStart := some now
          audioBuffer := (v.preBuffer ++ chunk) ++ chunk
          preBuffer := [] },
       [.StateChanged .Speaking]) := by
  unfold processChunk
  rw [hst]
  dsimp only
  rw [if_pos hsp, if_neg hcap]

/-- Helper: chunk equation — Speaking, speech frame, wake word disabled:
append the chunk, stay Speaking, no events. -/
lemma processChunk_speaking_speech (pred : Nat → ℚ) (now : Nat) (v : VadM)
    (chunk : List ℚ) (hst : v.state = .Speaking)
    (hw : v.wakeWordEnabled = false)
    (hsp : vadThreshold v ≤ pred v.predIdx) :
    processChunk pred now v chunk =
      ({ v with
          predIdx := v.predIdx + 1
          audioBuffer := v.audioBuffer ++ chunk }, []) := by
  unfold processChunk
  rw [hst]
  dsimp only
  rw [if_pos hsp]
  simp [hw]

/-- Helper: chunk equation — Speaking, silence frame, wake word disabled:
append the chunk, transition to SilenceDetected. -/
lemma processChunk_speaking_silence (pred : Nat → ℚ) (now : Nat) (v : VadM)
    (chunk : List ℚ) (hst : v.state = .Speaking)
    (hw : v.wakeWordEnabled = false)
    (hsp : ¬ vadThreshold v ≤ pred v.predIdx) :
    processChunk pred now v chunk =
      ({ v with
          predIdx := v.predIdx + 1
          audioBuffer := v.audioBuffer ++ chunk
          state := .SilenceDetected
          silenceStart := some now },
       [.StateChanged .SilenceDetected]) := by
  unfold processChunk
  rw [hst]
  dsimp only
  rw [if_neg hsp]
  simp [hw]

/-- Helper: chunk equation — SilenceDetected, silence frame, silence window
elapsed, speech long enough: emit `ReadyToProcess` and reset to Listening. -/
lemma processChunk_silence_emit (pred : Nat → ℚ) (now : Nat) (v : VadM)
    (chunk : List ℚ) (t : Nat) (hst : v.state = .SilenceDetected)
    (hsp : ¬ vadThreshold v ≤ pred v.predIdx)
    (hss : v.silenceStart = some t)
    (hel : v.silenceMs + v.speechPadMs ≤ now - t)
    (hdur : v.minSpeechMs ≤
      (match v.speechStart with | some s => now - s | none => 0)) :
    processChunk pred now v chunk =
      ({ v with
          predIdx := v.predIdx + 1
          audioBuffer := []
          state := .Listening
          silenceStart := none
          speechStart := none
          chunkBuffer := []
          wakeWordCheckEmitted := false },
       [VadEvent.ReadyToProcess (v.audioBuffer ++ chunk),
        VadEvent.StateChanged .Listening]) := by
  unfold processChunk
  rw [hst]
  dsimp only
  rw [if_neg hsp, hss]
  dsimp only
  rw [if_pos hel]
  simp [hdur]

end VadTransitions

/-- Explicit value of the started demonstration VAD. -/
def vadListenE : VadM :=
  ⟨.Listening, [], [], 4800, none, none, 1 / 2, 1000, 200, 300, [], false, 19200,
   false, 0⟩

/-- Explicit value of the demonstration VAD after the speech chunk. -/
def vadDemoSpeakingE : VadM :=
  ⟨.Speaking, List.replicate 1024 0, [], 4800, none, some 0, 1 / 2, 1000, 200, 300,
   [], false, 19200, false, 1⟩

/-- Explicit value of the demonstration VAD after the silence chunk. -/
def vadDemoSilenceE : VadM :=
  ⟨.SilenceDetected, List.replicate 1536 0, [], 4800, some 500, some 0, 1 / 2,
   1000, 200, 300, [], false, 19200, false, 2⟩

/-- Explicit value of the demonstration VAD after the emitting chunk. -/
def vadDemoFinalE : VadM :=
  ⟨.Listening, [], [], 4800, none, none, 1 / 2, 1000, 200, 300, [], false, 19200,
   false, 3⟩

/-- Helper: the started demonstration VAD, explicitly. -/
lemma vadStart_demo : (vadStart vadDemoNew).1 = vadListenE := rfl

/-- Helper: the spoken-into demonstration VAD, explicitly. -/
lemma vadDemoSpeaking_eq : vadDemoSpeaking = vadDemoSpeakingE := by
  unfold vadDemoSpeaking
  rw [vadStart_demo, vadFeed_eq _ _ _ _ (by decide)]
  simp only [vadListenE, List.nil_append, List.length_replicate]
  rw [feedGo_succ _ _ _ _ _ (by simp)]
  simp only [List.take_replicate, List.drop_replicate]
  norm_num
  rw [processChunk_listening_speech _ _ _ _ rfl
    (by norm_num [vadThreshold, vadDemoPred]) (by simp)]
  rw [feedGo_stop _ _ _ _ _ (by simp)]
  simp [vadDemoSpeakingE, ← List.replicate_add]

/-- Helper: the silence-detected demonstration VAD, explicitly. -/
lemma vadDemoSilence_eq : vadDemoSilence = vadDemoSilenceE := by
  unfold vadDemoSilence
  rw [vadDemoSpeaking_eq, vadFeed_eq _ _ _ _ (by decide)]
  simp only [vadDemoSpeakingE, List.nil_append, List.length_replicate]
  rw [feedGo_succ _ _ _ _ _ (by simp)]
  simp only [List.take_replicate, List.drop_replicate]
  norm_num
  rw [processChunk_speaking_silence _ _ _ _ rfl rfl
    (by norm_num [vadThreshold, vadDemoPred])]
  rw [feedGo_stop _ _ _ _ _ (by simp)]
  simp [vadDemoSilenceE, ← List.replicate_add]

/-- Helper: the emitting feed of the demonstration run, explicitly: after
4.5 s of silence the accumulated 2048 samples are emitted. -/
lemma vadDemoFinal_eq :
    vadFeed vadDemoPred 5000 vadDemoSilence (List.replicate 512 0) =
      (vadDemoFinalE,
       [VadEvent.ReadyToProcess (List.replicate 2048 0),
        VadEvent.StateChanged VadState.Listening]) := by
  rw [vadDemoSilence_eq, vadFeed_eq _ _ _ _ (by decide)]
  simp only [vadDemoSilenceE, List.nil_append, List.length_replicate]
  rw [feedGo_succ _ _ _ _ _ (by simp)]
  simp only [List.take_replicate, List.drop_replicate]
  norm_num
  rw [processChunk_silence_emit _ _ _ _ 500 rfl
    (by norm_num [vadThreshold, vadDemoPred]) rfl (by norm_num) (by norm_num)]
  rw [feedGo_stop _ _ _ _ _ (by simp)]
  simp [vadDemoFinalE, ← List.replicate_add]

/-- C3 counterexample: the claim says EVERY transition, including those of
`reset`, produces a `StateChanged` event.  `Vad::reset` returns `()`: from
the reachable `Speaking` state it transitions to `Listening` while emitting
no event at all. -/
theorem c3_counterexample :
    vadDemoSpeaking.state = VadState.Speaking ∧
    (vadOpStep VadOp.reset vadDemoSpeaking).1.state = VadState.Listening ∧
    (vadOpStep VadOp.reset vadDemoSpeaking).2 = [] := by
  refine ⟨?_, ?_, rfl⟩ <;> rw [vadDemoSpeaking_eq] <;> rfl

/-- C3 amended: every state transition caused by `start_listening`,
`stop_listening`, `feed`, or `abort_utterance` produces a `StateChanged`
event reporting the new state; `reset` (whose return type is `()`) is the
exception — it can transition Speaking/SilenceDetected to Listening with no
event, per the counterexample. -/
theorem c3_transitions_emit_events (op : VadOp) (v : VadM)
    (hop : op ≠ VadOp.reset)
    (h : (vadOpStep op v).1.state ≠ v.state) :
    VadEvent.StateChanged (vadOpStep op v).1.state ∈ (vadOpStep op v).2 := by
  cases op with
  | start =>
    by_cases hs : v.state = .Idle <;>
      simp_all [vadOpStep, vadStart]
  | stop =>
    by_cases hs : v.state = .Idle <;>
      simp_all [vadOpStep, vadStop]
  | abort =>
    by_cases hs : v.state = .Speaking ∨ v.state = .SilenceDetected <;>
      simp_all [vadOpStep, vadAbort]
  | reset => exact absurd rfl hop
  | setWake b => exact absurd rfl h
  | feed pred now samples =>
    simp only [vadOpStep, vadFeed] at h ⊢
    by_cases hs : v.state = .Idle
    · rw [if_pos hs] at h ⊢
      exact absurd rfl h
    · rw [if_neg hs] at h ⊢
      exact feedGo_state_change pred now _ _ [] h

/-- C3 witness: `start_listening` from the freshly built Idle VAD changes
the state (to Listening) and its event list reports it. -/
theorem c3_transitions_witness :
    VadEvent.StateChanged (vadOpStep VadOp.start vadDemoNew).1.state ∈
      (vadOpStep VadOp.start vadDemoNew).2 :=
  c3_transitions_emit_events VadOp.start vadDemoNew
    (fun hcon => VadOp.noConfusion hcon) (by decide)

/-- C4 counterexample: the claim says every `ReadyToProcess` utterance holds
at least `min_speech_ms × 16` samples.  The emission guard is wall-clock
only: one 512-sample speech chunk at t = 0, one silence chunk at t = 500 ms
and one at t = 5000 ms make the demonstration VAD (min_speech 200 ms) emit
an utterance of 2048 samples, below 200 × 16 = 3200. -/
theorem c4_counterexample :
    (vadFeed vadDemoPred 5000 vadDemoSilence (List.replicate 512 0)).2 =
      [VadEvent.ReadyToProcess (List.replicate 2048 0),
       VadEvent.StateChanged VadState.Listening] ∧
    (List.replicate 2048 (0 : ℚ)).length < vadDemoNew.minSpeechMs * 16 := by
  constructor
  · rw [vadDemoFinal_eq]
  · simp [vadDemoNew, vadNew]

/-- C4 amended: a chunk step emits `ReadyToProcess` only from
`SilenceDetected` on a sub-threshold frame once `silence_ms + speech_pad_ms`
of wall time has elapsed since silence-start and the WALL-CLOCK speech
duration is at least `min_speech_ms`; the emitted utterance is exactly the
accumulated buffer plus the chunk (its SAMPLE count is not bounded below by
`min_speech_ms × 16`, per the counterexample).  When the window has elapsed
but the speech duration is too short, the step emits only the
`StateChanged Listening` event — the buffer is dropped silently. -/
theorem c4_emission_guard :
    (∀ (pred : Nat → ℚ) (now : Nat) (v : VadM) (chunk audio : List ℚ),
      VadEvent.ReadyToProcess audio ∈ (processChunk pred now v chunk).2 →
      v.state = VadState.SilenceDetected ∧
      ¬ vadThreshold v ≤ pred v.predIdx ∧
      (∃ t, v.silenceStart = some t ∧
        v.silenceMs + v.speechPadMs ≤ now - t) ∧
      v.minSpeechMs ≤
        (match v.speechStart with | some s => now - s | none => 0) ∧
      audio = v.audioBuffer ++ chunk) ∧
    (∀ (pred : Nat → ℚ) (now : Nat) (v : VadM) (chunk : List ℚ) (t : Nat),
      v.state = VadState.SilenceDetected →
      ¬ vadThreshold v ≤ pred v.predIdx →
      v.silenceStart = some t →
      v.silenceMs + v.speechPadMs ≤ now - t →
      ¬ v.minSpeechMs ≤
        (match v.speechStart with | some s => now - s | none => 0) →
      (processChunk pred now v chunk).2 =
        [VadEvent.StateChanged VadState.Listening] ∧
      (processChunk pred now v chunk).1.state = VadState.Listening) := by
  constructor
  · intro pred now v chunk audio hmem
    unfold processChunk at hmem
    dsimp only at hmem
    by_cases hsp : vadThreshold v ≤ pred v.predIdx <;>
      cases hv : v.state <;> rw [hv] at hmem <;> dsimp only at hmem
    case pos.Idle => simp at hmem
    case pos.Listening => rw [if_pos hsp] at hmem; simp at hmem
    case pos.Speaking =>
      rw [if_pos hsp] at hmem
      split at hmem <;> simp at hmem
    case pos.SilenceDetected => rw [if_pos hsp] at hmem; simp at hmem
    case neg.Idle => simp at hmem
    case neg.Listening => rw [if_neg hsp] at hmem; simp at hmem
    case neg.Speaking =>
      rw [if_neg hsp] at hmem
      split at hmem <;> simp at hmem
    case neg.SilenceDetected =>
      rw [if_neg hsp] at hmem
      cases hss : v.silenceStart <;> rw [hss] at hmem <;> dsimp only at hmem
      case none => simp at hmem
      case some t =>
        by_cases hel : v.silenceMs + v.speechPadMs ≤ now - t
        · rw [if_pos hel] at hmem
          simp at hmem
          exact ⟨rfl, hsp, ⟨t, rfl, hel⟩, hmem.1, hmem.2⟩
        · rw [if_neg hel] at hmem
          simp at hmem
  · intro pred now v chunk t hst hsp hss hel hdur
    unfold processChunk
    rw [hst]
    dsimp only
    rw [if_neg hsp, hss]
    dsimp only
    rw [if_pos hel, if_neg hdur]
    simp [hdur]

/-- C4 witness: the emission guard, instantiated at the demonstration
silence state fed its emitting chunk at t = 5000 ms. -/
theorem c4_emission_witness :
    vadDemoSilenceE.state = VadState.SilenceDetected ∧
    ¬ vadThreshold vadDemoSilenceE ≤ vadDemoPred vadDemoSilenceE.predIdx ∧
    (∃ t, vadDemoSilenceE.silenceStart = some t ∧
      vadDemoSilenceE.silenceMs + vadDemoSilenceE.speechPadMs ≤ 5000 - t) ∧
    vadDemoSilenceE.minSpeechMs ≤
      (match vadDemoSilenceE.speechStart with | some s => 5000 - s | none => 0) ∧
    List.replicate 1536 (0 : ℚ) ++ List.replicate 512 0 =
      vadDemoSilenceE.audioBuffer ++ List.replicate 512 0 :=
  c4_emission_guard.1 vadDemoPred 5000 vadDemoSilenceE (List.replicate 512 0)
    (List.replicate 1536 0 ++ List.replicate 512 0)
    (by
      rw [processChunk_silence_emit _ _ _ _ 500 rfl
        (by norm_num [vadThreshold, vadDemoPred, vadDemoSilenceE]) rfl
        (by norm_num [vadDemoSilenceE]) (by simp [vadDemoSilenceE])]
      simp [vadDemoSilenceE])

/-! ### The 30-second buffer cap (C5) -/

/-- One feed of 512 speech samples (detector probability constantly 1) at
t = 0: the step of the unbounded-growth run. -/
def growStep (v : VadM) : VadM :=
  (vadFeed (fun _ => 1) 0 v (List.replicate 512 0)).1

/-- The growth run: start listening on the demonstration VAD and feed `n`
512-sample speech chunks. -/
def vadRunGrow (n : Nat) : VadM := growStep^[n] (vadStart vadDemoNew).1

/-- Helper: a speech feed while Speaking (wake word off, empty chunk rest)
appends exactly its 512 samples to the utterance buffer — no truncation of
any kind occurs. -/
lemma growStep_speaking (v : VadM) (h1 : v.state = .Speaking)
    (h2 : v.chunkBuffer = []) (h3 : v.wakeWordEnabled = false)
    (h4 : vadThreshold v ≤ 1) :
    growStep v = { v with
      predIdx := v.predIdx + 1
      audioBuffer := v.audioBuffer ++ List.replicate 512 0 } := by
  unfold growStep
  rw [vadFeed_eq _ _ _ _ (by simp [h1]), h2]
  simp only [List.nil_append, List.length_replicate]
  rw [feedGo_succ _ _ _ _ _ (by simp)]
  simp only [List.take_replicate, List.drop_replicate]
  norm_num
  rw [processChunk_speaking_speech _ _ _ _ (by simpa using h1) (by simpa using h3)
    (by simpa [vadThreshold] using h4)]
  rw [feedGo_stop _ _ _ _ _ (by simp)]


/-- Helper: after the first chunk the growth run is Speaking with 1024
buffered samples. -/
lemma vadRunGrow_one : vadRunGrow 1 = vadDemoSpeakingE := by
  unfold vadRunGrow
  rw [Function.iterate_one]
  unfold growStep
  rw [vadStart_demo, vadFeed_eq _ _ _ _ (by decide)]
  simp only [vadListenE, List.nil_append, List.length_replicate]
  rw [feedGo_succ _ _ _ _ _ (by simp)]
  simp only [List.take_replicate, List.drop_replicate]
  norm_num
  rw [processChunk_listening_speech _ _ _ _ rfl
    (by norm_num [vadThreshold]) (by simp)]
  rw [feedGo_stop _ _ _ _ _ (by simp)]
  simp [vadDemoSpeakingE, ← List.replicate_add]

/-- Helper: invariant of the growth run. -/
def vadGrowInv (v : VadM) : Prop :=
  v.state = .Speaking ∧ v.chunkBuffer = [] ∧ v.wakeWordEnabled = false ∧
    v.sensitivity = 1 / 2

/-- Helper: the growth run's buffer length after `n + 1` chunks is exactly
`1024 + 512 n` — it grows without bound. -/
lemma vadRunGrow_len : ∀ n : Nat,
    (vadRunGrow (n + 1)).audioBuffer.length = 1024 + 512 * n ∧
    vadGrowInv (vadRunGrow (n + 1)) := by
  intro n
  induction n with
  | zero =>
    rw [vadRunGrow_one]
    exact ⟨by simp [vadDemoSpeakingE], rfl, rfl, rfl, rfl⟩
  | succ n ih =>
    have hlen := ih.1
    have hst := ih.2.1
    have hcb := ih.2.2.1
    have hw := ih.2.2.2.1
    have hsens := ih.2.2.2.2
    have hstep : vadRunGrow (n + 1 + 1) = growStep (vadRunGrow (n + 1)) := by
      unfold vadRunGrow
      rw [Function.iterate_succ_apply']
    have hthr : vadThreshold (vadRunGrow (n + 1)) ≤ 1 := by
      unfold vadThreshold
      rw [hsens]
      norm_num
    rw [hstep, growStep_speaking _ hst hcb hw hthr]
    refine ⟨?_, ?_, ?_, ?_, ?_⟩ <;>
      simp [vadGrowInv, hlen, hst, hcb, hw, hsens, Nat.mul_succ] <;> ring

/-- C5 counterexample: the claim says the utterance buffer never exceeds
30 × 16000 samples, with truncation beyond the cap.  The source's
`// 30s max` is only a `Vec::with_capacity` hint: after 937 speech chunks
the buffer holds 480256 samples, past the claimed 480000-sample cap, and
keeps growing. -/
theorem c5_buffer_exceeds_cap :
    30 * 16000 < (vadRunGrow 937).audioBuffer.length := by
  have h := (vadRunGrow_len 936).1
  have h937 : (937 : Nat) = 936 + 1 := by norm_num
  rw [h937, h]
  norm_num

/-- C5 amended: the utterance buffer is not capped at all: while Speaking
every 512-sample speech chunk is appended unconditionally, so for every
bound B a long enough speech run ends Speaking with more than B buffered
samples — the `Vec::with_capacity(VAD_SAMPLE_RATE * 30)` of `Vad::new` is
only an allocation hint, and no path of `feed` truncates the buffer. -/
theorem c5_unbounded_growth (B : Nat) :
    ∃ n, vadGrowInv (vadRunGrow (n + 1)) ∧
      B < (vadRunGrow (n + 1)).audioBuffer.length := by
  refine ⟨B, (vadRunGrow_len B).2, ?_⟩
  rw [(vadRunGrow_len B).1]
  omega

/-- C5 witness: some growth run exceeds the claimed 480000-sample cap while
still Speaking. -/
theorem c5_unbounded_growth_witness :
    ∃ n, vadGrowInv (vadRunGrow (n + 1)) ∧
      480000 < (vadRunGrow (n + 1)).audioBuffer.length :=
  c5_unbounded_growth 480000

/-! ### Safety of `normalize_aliases` on ASCII input (claim about
src/commands.rs lines 71-95) -/

/-- An ASCII scalar encodes in one UTF-8 byte. -/
lemma utf8Size_ascii (c : Char) (h : c.toNat < 128) : c.utf8Size = 1 := by
  unfold Char.utf8Size
  rw [if_pos]
  change c.val ≤ 127
  rw [UInt32.le_def]
  exact Nat.le_of_lt_succ h

/-- On ASCII text the UTF-8 byte length equals the scalar count. -/
lemma utf8Len_ascii (l : List Char) (h : ∀ c ∈ l, c.toNat < 128) :
    utf8Len l = l.length := by
  induction l with
  | nil => rfl
  | cons c rest ih =>
    have hc := utf8Size_ascii c (h c (List.mem_cons_self c rest))
    have hr := ih (fun d hd => h d (List.mem_cons_of_mem _ hd))
    simp [utf8Len] at hr ⊢
    omega

lemma utf8Len_append (a b : List Char) :
    utf8Len (a ++ b) = utf8Len a + utf8Len b := by
  simp [utf8Len]

lemma utf8Len_cons (c : Char) (l : List Char) :
    utf8Len (c :: l) = c.utf8Size + utf8Len l := by
  simp [utf8Len]

/-- `Char.ofNat` of a valid scalar value keeps its numeric value. -/
lemma ofNat_toNat_lt (m : Nat) (h : m < 0xD800) : (Char.ofNat m).toNat = m := by
  unfold Char.ofNat
  rw [dif_pos]
  · rfl
  · exact Or.inl h

/-- Lowercasing an ASCII scalar yields a single ASCII scalar. -/
lemma rustLowerChar_ascii (c : Char) (h : c.toNat < 128) :
    ∃ d, rustLowerChar c = [d] ∧ d.toNat < 128 := by
  unfold rustLowerChar
  by_cases hAZ : 'A' ≤ c ∧ c ≤ 'Z'
  · refine ⟨Char.ofNat (c.toNat + 32), by rw [if_pos hAZ], ?_⟩
    have h90 : c.toNat ≤ 90 := by
      have h2 := hAZ.2
      rw [Char.le_def, UInt32.le_def, BitVec.le_def] at h2
      exact h2
    rw [ofNat_toNat_lt _ (by omega)]
    omega
  · rw [if_neg hAZ]
    by_cases hI : c = Char.ofNat 0x130
    · exfalso
      have h304 : (Char.ofNat 0x130).toNat = 0x130 := by decide
      rw [hI, h304] at h
      omega
    · exact ⟨c, by rw [if_neg hI], h⟩

/-- Lowercasing ASCII text is length-preserving and stays ASCII. -/
lemma lowerChars_ascii (l : List Char) (h : ∀ c ∈ l, c.toNat < 128) :
    (∀ c ∈ lowerChars l, c.toNat < 128) ∧ (lowerChars l).length = l.length := by
  induction l with
  | nil => exact ⟨by simp [lowerChars], rfl⟩
  | cons c rest ih =>
    obtain ⟨d, hd, hd128⟩ := rustLowerChar_ascii c (h c (List.mem_cons_self c rest))
    obtain ⟨ih1, ih2⟩ := ih (fun e he => h e (List.mem_cons_of_mem _ he))
    constructor
    · intro e he
      simp [lowerChars, hd] at he
      rcases he with he | he
      · rw [he]; exact hd128
      · exact ih1 e (by simpa [lowerChars] using he)
    · simp [lowerChars, hd] at ih2 ⊢
      omega

/-- On ASCII text `byteDrop` succeeds at every offset within the length and
coincides with `List.drop`. -/
lemma byteDrop_ascii (l : List Char) :
    ∀ n, (∀ c ∈ l, c.toNat < 128) → n ≤ l.length →
      byteDrop l n = some (l.drop n) := by
  induction l with
  | nil =>
    intro n _ hn
    simp only [List.length_nil, Nat.le_zero] at hn
    subst hn
    rfl
  | cons c rest ih =>
    intro n ha hn
    match n with
    | 0 => rfl
    | n + 1 =>
      have hc := utf8Size_ascii c (ha c (List.mem_cons_self c rest))
      show byteDrop (c :: rest) (n + 1) = _
      unfold byteDrop
      rw [hc, if_neg (by omega)]
      simp only [Nat.add_sub_cancel]
      rw [ih n (fun d hd => ha d (List.mem_cons_of_mem _ hd))
        (by simpa using hn)]
      rfl

/-- On ASCII text `byteTake` succeeds at every offset within the length and
coincides with `List.take`. -/
lemma byteTake_ascii (l : List Char) :
    ∀ n, (∀ c ∈ l, c.toNat < 128) → n ≤ l.length →
      byteTake l n = some (l.take n) := by
  induction l with
  | nil =>
    intro n _ hn
    simp only [List.length_nil, Nat.le_zero] at hn
    subst hn
    rfl
  | cons c rest ih =>
    intro n ha hn
    match n with
    | 0 => rfl
    | n + 1 =>
      have hc := utf8Size_ascii c (ha c (List.mem_cons_self c rest))
      show byteTake (c :: rest) (n + 1) = _
      unfold byteTake
      rw [hc, if_neg (by omega)]
      simp only [Nat.add_sub_cancel]
      rw [ih n (fun d hd => ha d (List.mem_cons_of_mem _ hd))
        (by simpa using hn)]
      rfl

/-- On ASCII text `byteSlice` succeeds on every in-bounds range. -/
lemma byteSlice_ascii (l : List Char) (a b : Nat)
    (h : ∀ c ∈ l, c.toNat < 128) (hab : a ≤ b) (hb : b ≤ l.length) :
    byteSlice l a b = some ((l.drop a).take (b - a)) := by
  unfold byteSlice
  rw [if_pos hab, byteDrop_ascii l a h (le_trans hab hb)]
  show byteTake (l.drop a) (b - a) = _
  rw [byteTake_ascii (l.drop a) (b - a)
    (fun c hc => h c (List.mem_of_mem_drop hc))
    (by simp only [List.length_drop]; omega)]

lemma utf8Len_le_of_pre (a b : List Char) (h : a.isPrefixOf b) :
    utf8Len a ≤ utf8Len b := by
  rw [ List.isPrefixOf_iff_prefix] at h
  obtain ⟨t, rfl⟩ := h
  simp [utf8Len_append]

/-- A successful `rustFind` leaves room for the needle inside the haystack:
`pos + len(needle) ≤ len(hay)` in bytes. -/
lemma rustFind_bound (hay : List Char) :
    ∀ needle pos, rustFind hay needle = some pos →
      pos + utf8Len needle ≤ utf8Len hay := by
  induction hay with
  | nil =>
    intro needle pos h
    unfold rustFind at h
    by_cases hp : needle.isPrefixOf ([] : List Char)
    · rw [if_pos hp] at h
      injection h with h
      subst h
      simpa using utf8Len_le_of_pre needle [] hp
    · rw [if_neg hp] at h
      cases h
  | cons c rest ih =>
    intro needle pos h
    unfold rustFind at h
    by_cases hp : needle.isPrefixOf (c :: rest)
    · rw [if_pos hp] at h
      injection h with h
      subst h
      simpa using utf8Len_le_of_pre needle (c :: rest) hp
    · rw [if_neg hp] at h
      dsimp only at h
      cases hf : rustFind rest needle with
      | none => rw [hf] at h; cases h
      | some p =>
        rw [hf] at h
        have hpp : p + c.utf8Size = pos := by simpa using h
        subst hpp
        have := ih needle p hf
        rw [utf8Len_cons]
        omega

/-- The alias-replacement loop terminates successfully on ASCII data, with
ASCII output.  `searchStart` advances by at least one byte per iteration, so
the fuel `len(res) + 1 - searchStart` suffices. -/
lemma aliasLoop_ascii (fromW toW : List Char)
    (hf : ∀ c ∈ fromW, c.toNat < 128) (hfne : fromW ≠ [])
    (ht : ∀ c ∈ toW, c.toNat < 128) :
    ∀ fuel res searchStart acc,
      (∀ c ∈ res, c.toNat < 128) → (∀ c ∈ acc, c.toNat < 128) →
      searchStart ≤ res.length →
      res.length + 1 - searchStart ≤ fuel →
      ∃ out, aliasLoop fromW toW fuel res searchStart acc = some out ∧
        ∀ c ∈ out, c.toNat < 128 := by
  intro fuel
  induction fuel with
  | zero =>
    intro res searchStart acc _ _ hss hfuel
    omega
  | succ fuel ih =>
    intro res searchStart acc hres hacc hss hfuel
    have hsuffA : ∀ c ∈ res.drop searchStart, c.toNat < 128 :=
      fun c hc => hres c (List.mem_of_mem_drop hc)
    have hstep : aliasLoop fromW toW (fuel + 1) res searchStart acc =
        match byteDrop res searchStart with
        | none => none
        | some suffix =>
          match rustFind (lowerChars suffix) (lowerChars fromW) with
          | none => some (acc ++ suffix)
          | some pos =>
            match byteSlice res searchStart (searchStart + pos) with
            | none => none
            | some pre =>
              aliasLoop fromW toW fuel res (searchStart + pos + utf8Len fromW)
                (acc ++ pre ++ toW) := rfl
    rw [hstep, byteDrop_ascii res searchStart hres hss]
    dsimp only
    cases hfind : rustFind (lowerChars (res.drop searchStart))
        (lowerChars fromW) with
    | none =>
      refine ⟨acc ++ res.drop searchStart, rfl, ?_⟩
      intro c hc
      rcases List.mem_append.1 hc with hc | hc
      · exact hacc c hc
      · exact hsuffA c hc
    | some pos =>
      have hbound := rustFind_bound _ _ _ hfind
      obtain ⟨hloA, hloLen⟩ := lowerChars_ascii (res.drop searchStart) hsuffA
      obtain ⟨hfA, hfLen⟩ := lowerChars_ascii fromW hf
      rw [utf8Len_ascii _ hloA, utf8Len_ascii _ hfA, hloLen, hfLen] at hbound
      have hdropLen : (res.drop searchStart).length = res.length - searchStart := by
        simp [List.length_drop]
      rw [hdropLen] at hbound
      have hfpos : 1 ≤ fromW.length := by
        cases fromW with
        | nil => exact absurd rfl hfne
        | cons a l => simp
      dsimp only
      rw [byteSlice_ascii res searchStart (searchStart + pos) hres
        (by omega) (by omega)]
      dsimp only
      rw [utf8Len_ascii fromW hf]
      refine ih res (searchStart + pos + fromW.length)
        (acc ++ ((res.drop searchStart).take (searchStart + pos - searchStart)) ++ toW)
        hres ?_ (by omega) (by omega)
      intro c hc
      rcases List.mem_append.1 hc with hc | hc
      · rcases List.mem_append.1 hc with hc | hc
        · exact hacc c hc
        · exact hsuffA c (List.mem_of_mem_take hc)
      · exact ht c hc

/-- One `(from, to)` pass succeeds on nonempty ASCII data with ASCII output. -/
lemma applyAlias_ascii (res fromW toW : List Char)
    (hr : ∀ c ∈ res, c.toNat < 128) (hf : ∀ c ∈ fromW, c.toNat < 128)
    (hfne : fromW ≠ []) (ht : ∀ c ∈ toW, c.toNat < 128) :
    ∃ out, applyAlias res fromW toW = some out ∧ ∀ c ∈ out, c.toNat < 128 := by
  unfold applyAlias
  rw [if_neg (by simpa [List.isEmpty_iff] using hfne)]
  refine aliasLoop_ascii fromW toW hf hfne ht (utf8Len res + 1) res 0 []
    hr (by simp) (Nat.zero_le _) ?_
  rw [utf8Len_ascii res hr]
  omega

/-- The alias fold succeeds when every key is nonempty and all data is
ASCII, with ASCII output. -/
lemma foldAliases_ascii :
    ∀ (aliases : List (String × String)),
      (∀ p ∈ aliases, p.1.data ≠ [] ∧
        (∀ c ∈ p.1.data, c.toNat < 128) ∧ (∀ c ∈ p.2.data, c.toNat < 128)) →
      ∀ res, (∀ c ∈ res, c.toNat < 128) →
        ∃ out,
          aliases.foldlM (fun res (p : String × String) =>
            applyAlias res p.1.data p.2.data) res = some out ∧
          ∀ c ∈ out, c.toNat < 128 := by
  intro aliases
  induction aliases with
  | nil => exact fun _ res hres => ⟨res, rfl, hres⟩
  | cons p rest ih =>
    intro hal res hres
    obtain ⟨hne, hk, hv⟩ := hal p (List.mem_cons_self p rest)
    obtain ⟨mid, hmid, hmidA⟩ := applyAlias_ascii res p.1.data p.2.data
      hres hk hne hv
    rw [List.foldlM_cons, hmid]
    exact ih (fun q hq => hal q (List.mem_cons_of_mem _ hq)) mid hmidA

/-- C10 counterexample: `normalize_aliases` DOES panic on non-ASCII input.
With text `"İa"` (U+0130 followed by a) and the single alias `a → b`, the
lowercased text is `"i̇a"` (three scalars, four bytes), `find` returns byte
offset 3, and resuming the search at byte `3 + 1 = 4` of the original
two-scalar, three-byte string slices out of bounds: the model returns
`none`, the panic value. -/
theorem c10_counterexample :
    normalizeAliases (String.mk [Char.ofNat 0x130, 'a'])
      [("a", "b")] = none := by decide

/-- C10 (amended): `normalize_aliases` returns without panicking whenever
the text and the alias map are ASCII and every alias key is nonempty: every
byte offset used to slice the original string is then in bounds and on a
character boundary.  The unrestricted claim is refuted by
the non-ASCII counterexample above. -/
theorem c10_ascii_total (text : String) (aliases : List (String × String))
    (htext : ∀ c ∈ text.data, c.toNat < 128)
    (hal : ∀ p ∈ aliases, p.1.data ≠ [] ∧
      (∀ c ∈ p.1.data, c.toNat < 128) ∧ (∀ c ∈ p.2.data, c.toNat < 128)) :
    (normalizeAliases text aliases).isSome := by
  obtain ⟨out, hout, -⟩ := foldAliases_ascii aliases hal text.data htext
  unfold normalizeAliases
  rw [hout]
  rfl

/-- Witness for `c10_ascii_total`: the ASCII configuration-file example
(`launch e max` with alias `e max → emacs`) does not panic. -/
theorem c10_ascii_total_witness :
    (normalizeAliases "launch e max" [("e max", "emacs")]).isSome :=
  c10_ascii_total "launch e max" [("e max", "emacs")] (by decide) (by decide)

end SS9K
